import Mathlib

/-!
A shallow embedding of VROOM's input parser (`src/utils/input_parser.cpp`)
together with theorems about the properties of the parser.

The generic JSON tree (rapidjson) is modelled by the inductive `JVal`;
JSON numbers are modelled as rationals (every decimal literal is one), with
`isUint` / `isUint64` mirroring rapidjson's representability predicates.
The C++ functions raise `Exception(ERROR, message)`; this is modelled with
`Except Exception`.  The raw-text parsing step (rapidjson `Parse`) is out of
scope: `parse` receives the already-parsed document tree.
-/

namespace Vroom

/-- Generic JSON value, mirroring the rapidjson value tree. -/
inductive JVal where
  | null
  | bool (b : Bool)
  | num (q : Rat)
  | str (s : String)
  | arr (elts : List JVal)
  | obj (mem : List (String × JVal))

/-- Object member lookup; rapidjson `FindMember` returns the first member
with a matching name. -/
def JVal.find : JVal → String → Option JVal
  | .obj mem, key => (mem.find? (fun p => p.1 == key)).map (fun p => p.2)
  | _, _ => none

/-- rapidjson `HasMember`. -/
def JVal.hasMember (v : JVal) (key : String) : Bool :=
  (v.find key).isSome

/-- rapidjson `operator[]` on an object.  In C++ the access is only made
after `HasMember` succeeded; a missing member is mapped to `null`. -/
def JVal.get (v : JVal) (key : String) : JVal :=
  (v.find key).getD .null

/-- rapidjson `IsArray`. -/
def JVal.isArray : JVal → Bool
  | .arr _ => true
  | _ => false

/-- rapidjson `IsObject`. -/
def JVal.isObject : JVal → Bool
  | .obj _ => true
  | _ => false

/-- rapidjson `IsString`. -/
def JVal.isString : JVal → Bool
  | .str _ => true
  | _ => false

/-- rapidjson `IsNumber`. -/
def JVal.isNumber : JVal → Bool
  | .num _ => true
  | _ => false

/-- rapidjson `IsUint`: a number representable as a 32-bit unsigned int. -/
def JVal.isUint : JVal → Bool
  | .num q => q.den == 1 && 0 ≤ q.num && q.num < 2 ^ 32
  | _ => false

/-- rapidjson `IsUint64`: a number representable as a 64-bit unsigned int. -/
def JVal.isUint64 : JVal → Bool
  | .num q => q.den == 1 && 0 ≤ q.num && q.num < 2 ^ 64
  | _ => false

/-- rapidjson `GetUint`; only accessed after an `IsUint` check. -/
def JVal.getUint : JVal → Nat
  | .num q => q.num.toNat
  | _ => 0

/-- rapidjson `GetUint64`; only accessed after an `IsUint64` check. -/
def JVal.getUint64 : JVal → Nat
  | .num q => q.num.toNat
  | _ => 0

/-- rapidjson `GetDouble`; only accessed after an `IsNumber` check. -/
def JVal.getDouble : JVal → Rat
  | .num q => q
  | _ => 0

/-- rapidjson `GetString`; only accessed after an `IsString` check. -/
def JVal.getString : JVal → String
  | .str s => s
  | _ => ""

/-- The element list of an array value. -/
def JVal.elts : JVal → List JVal
  | .arr xs => xs
  | _ => []

/-- rapidjson `Size` of an array. -/
def JVal.size (v : JVal) : Nat :=
  v.elts.length

/-- rapidjson `operator[]` on an array; in C++ only accessed in bounds. -/
def JVal.at (v : JVal) (i : Nat) : JVal :=
  v.elts.getD i .null

/-- `vroom::ERROR` kinds. -/
inductive ERROR where
  | INPUT
  | ROUTING
deriving DecidableEq, Repr

/-- `vroom::Exception`: an error kind together with a message. -/
structure Exception where
  error : ERROR
  message : String
deriving DecidableEq, Repr

/-- Coordinates: an (x, y) pair of JSON numbers (C++ doubles, modelled as
the rationals the document literals denote). -/
def Coordinates := Rat × Rat
deriving DecidableEq

/-- `parse_coordinates`: read a mandatory coordinate array field. -/
def parse_coordinates (object : JVal) (key : String) :
    Except Exception Coordinates :=
  if !(object.get key).isArray || (object.get key).size < 2 ||
      !((object.get key).at 0).isNumber || !((object.get key).at 1).isNumber then
    .error ⟨.INPUT, "Invalid " ++ key ++ " array."⟩
  else
    .ok (((object.get key).at 0).getDouble, ((object.get key).at 1).getDouble)

/-- `get_string`: optional string field, defaulting to the empty string. -/
def get_string (object : JVal) (key : String) : Except Exception String :=
  if object.hasMember key then
    if !(object.get key).isString then
      .error ⟨.INPUT, "Invalid " ++ key ++ " value."⟩
    else
      .ok (object.get key).getString
  else
    .ok ""

/-- Element-wise reading of an amount array: each entry must be a
non-negative (32-bit) integer. -/
def get_amount_elts (key : String) : List JVal → Except Exception (List Nat)
  | [] => .ok []
  | e :: rest =>
    if !e.isUint then
      .error ⟨.INPUT, "Invalid " ++ key ++ " value."⟩
    else do
      let tail ← get_amount_elts key rest
      .ok (e.getUint :: tail)

/-- `get_amount`: optional amount field.  Absent defaults to a zero amount
of length `size`; present must be an array of exactly `size` non-negative
integers, a mismatched length raising an error citing both lengths. -/
def get_amount (object : JVal) (key : String) (size : Nat) :
    Except Exception (List Nat) :=
  if object.hasMember key then
    if !(object.get key).isArray then
      .error ⟨.INPUT, "Invalid " ++ key ++ " array."⟩
    else if (object.get key).size ≠ size then
      .error ⟨.INPUT, "Inconsistent " ++ key ++ " length: " ++
        toString (object.get key).size ++ " and " ++ toString size ++ "."⟩
    else
      get_amount_elts key (object.get key).elts
  else
    .ok (List.replicate size 0)

/-- Element-wise reading of the skills array. -/
def get_skills_elts : List JVal → Except Exception (Finset ℕ)
  | [] => .ok ∅
  | e :: rest =>
    if !e.isUint then
      .error ⟨.INPUT, "Invalid skill value."⟩
    else do
      let s ← get_skills_elts rest
      .ok (insert e.getUint s)

/-- `get_skills`: optional skills set (uniqueness enforced by the set). -/
def get_skills (object : JVal) : Except Exception (Finset ℕ) :=
  if object.hasMember ("skills") then
    if !(object.get ("skills")).isArray then
      .error ⟨.INPUT, "Invalid skills object."⟩
    else
      get_skills_elts (object.get ("skills")).elts
  else
    .ok ∅

/-- `get_service`: optional non-negative service duration, default 0. -/
def get_service (object : JVal) : Except Exception Nat :=
  if object.hasMember ("service") then
    if !(object.get ("service")).isUint then
      .error ⟨.INPUT, "Invalid service value."⟩
    else
      .ok (object.get ("service")).getUint
  else
    .ok 0

/-- Modelled from the spec: the fixed maximum priority constant
(`MAX_PRIORITY`), whose definition lives outside the given source file.
Its exact value is irrelevant to every property proved below. -/
def MAX_PRIORITY : Nat := 100

/-- `get_priority`: optional priority, default 0, bounded by
`MAX_PRIORITY`. -/
def get_priority (object : JVal) : Except Exception Nat :=
  if object.hasMember ("priority") then
    if !(object.get ("priority")).isUint then
      .error ⟨.INPUT, "Invalid priority value."⟩
    else if MAX_PRIORITY < (object.get ("priority")).getUint then
      .error ⟨.INPUT, "Invalid priority value."⟩
    else
      .ok (object.get ("priority")).getUint
  else
    .ok 0

/-- `check_id`: the value must be an object with a `u64` id. -/
def check_id (v : JVal) (type : String) : Except Exception Unit :=
  if !v.isObject then
    .error ⟨.INPUT, "Invalid " ++ type ++ "."⟩
  else if !v.hasMember ("id") || !(v.get ("id")).isUint64 then
    .error ⟨.INPUT, "Invalid or missing id for " ++ type ++ "."⟩
  else
    .ok ()

/-- `check_shipment`: an object with `pickup` and `delivery` sub-objects. -/
def check_shipment (v : JVal) : Except Exception Unit :=
  if !v.isObject then
    .error ⟨.INPUT, "Invalid shipment."⟩
  else if !v.hasMember ("pickup") || !(v.get ("pickup")).isObject then
    .error ⟨.INPUT, "Missing pickup for shipment."⟩
  else if !v.hasMember ("delivery") || !(v.get ("delivery")).isObject then
    .error ⟨.INPUT, "Missing delivery for shipment."⟩
  else
    .ok ()

/-- `check_location_index`: matrix mode requires a non-negative integer
`location_index` strictly below the matrix size. -/
def check_location_index (v : JVal) (type : String) (matrix_size : Nat) :
    Except Exception Unit :=
  if !v.hasMember ("location_index") || !(v.get ("location_index")).isUint then
    .error ⟨.INPUT, "Invalid location_index for " ++ type ++ " " ++
      toString (v.get ("id")).getUint64 ++ "."⟩
  else if matrix_size ≤ (v.get ("location_index")).getUint then
    .error ⟨.INPUT, "location_index exceeding matrix size for " ++ type ++
      " " ++ toString (v.get ("id")).getUint64 ++ "."⟩
  else
    .ok ()

/-- `check_location`: routing mode requires a `location` array. -/
def check_location (v : JVal) (type : String) : Except Exception Unit :=
  if !v.hasMember ("location") || !(v.get ("location")).isArray then
    .error ⟨.INPUT, "Invalid location for " ++ type ++ " " ++
      toString (v.get ("id")).getUint64 ++ "."⟩
  else
    .ok ()

/-- Modelled from the spec: the end bound of the default unbounded time
window `[0, +inf)` (the maximum representable duration, defined outside
the given source file). -/
def DEFAULT_TW_END : Nat := 2 ^ 32 - 1

/-- A `TimeWindow` is a `(start, end)` pair of non-negative integers. -/
structure TimeWindow where
  start : Nat
  end_ : Nat
deriving DecidableEq, Repr

/-- The default (unbounded) time window. -/
def TimeWindow.default : TimeWindow := ⟨0, DEFAULT_TW_END⟩

/-- The non-strict lexicographic order on time windows by `(start, end)`;
the complement of the strict `operator<` used by `std::sort`. -/
def tw_le (a b : TimeWindow) : Prop :=
  a.start < b.start ∨ (a.start = b.start ∧ a.end_ ≤ b.end_)

instance : DecidableRel tw_le := fun a b => by
  unfold tw_le; infer_instance

instance : IsTotal TimeWindow tw_le :=
  ⟨by intro a b; unfold tw_le; omega⟩

instance : IsTrans TimeWindow tw_le :=
  ⟨by intro a b c; unfold tw_le; omega⟩

/-- `get_time_window`: an array of at least two non-negative integers. -/
def get_time_window (tw : JVal) : Except Exception TimeWindow :=
  if !tw.isArray || tw.size < 2 || !(tw.at 0).isUint || !(tw.at 1).isUint then
    .error ⟨.INPUT, "Invalid time-window."⟩
  else
    .ok ⟨(tw.at 0).getUint, (tw.at 1).getUint⟩

/-- `get_vehicle_time_window`: optional single time window, defaulting to
the unbounded window. -/
def get_vehicle_time_window (v : JVal) : Except Exception TimeWindow :=
  if v.hasMember ("time_window") then
    get_time_window (v.get ("time_window"))
  else
    .ok TimeWindow.default

/-- `get_job_time_windows`: optional, non-empty when present, each entry a
valid time window; the result is sorted (`std::sort`, modelled as a
stable sort by the associated non-strict order).  Absent defaults to a
single unbounded window. -/
def get_job_time_windows (j : JVal) : Except Exception (List TimeWindow) :=
  if j.hasMember ("time_windows") then
    if !(j.get ("time_windows")).isArray || (j.get ("time_windows")).size == 0 then
      .error ⟨.INPUT, "Invalid time_windows array for job " ++
        toString (j.get ("id")).getUint64 ++ "."⟩
    else do
      let tws ← (j.get ("time_windows")).elts.mapM get_time_window
      .ok (tws.insertionSort tw_le)
  else
    .ok [TimeWindow.default]

/-- `get_break_time_windows`: mandatory non-empty time-window list for a
break (no default), sorted like the job time windows. -/
def get_break_time_windows (b : JVal) : Except Exception (List TimeWindow) :=
  if !b.hasMember ("time_windows") || !(b.get ("time_windows")).isArray ||
      (b.get ("time_windows")).size == 0 then
    .error ⟨.INPUT, "Invalid time_windows array for break " ++
      toString (b.get ("id")).getUint64 ++ "."⟩
  else do
    let tws ← (b.get ("time_windows")).elts.mapM get_time_window
    .ok (tws.insertionSort tw_le)

/-- A vehicle break. -/
structure Break where
  id : Nat
  tws : List TimeWindow
  service : Nat
  description : String
deriving DecidableEq, Repr

/-- `get_break`: a break with id, mandatory time windows, service and
description. -/
def get_break (b : JVal) : Except Exception Break := do
  check_id b ("break")
  let tws ← get_break_time_windows b
  let service ← get_service b
  let descr ← get_string b ("description")
  .ok ⟨(b.get ("id")).getUint64, tws, service, descr⟩

/-- The break comparison used to sort a vehicle's breaks: non-strict
lexicographic order on the first time window's `(start, end)`. -/
def break_le (a b : Break) : Prop :=
  tw_le (a.tws.headD TimeWindow.default) (b.tws.headD TimeWindow.default)

instance : DecidableRel break_le := fun a b => by
  unfold break_le; infer_instance

instance : IsTotal Break break_le :=
  ⟨by intro a b; exact IsTotal.total (r := tw_le) _ _⟩

instance : IsTrans Break break_le :=
  ⟨by intro a b c hab hbc; exact Trans.trans (r := tw_le) hab hbc⟩

/-- `get_vehicle_breaks`: optional break array, each entry built by
`get_break`; the final list is sorted by first window start then end. -/
def get_vehicle_breaks (v : JVal) : Except Exception (List Break) := do
  let breaks ←
    if v.hasMember ("breaks") then
      if !(v.get ("breaks")).isArray then
        .error ⟨.INPUT, "Invalid breaks for vehicle " ++
          toString (v.get ("id")).getUint64 ++ "."⟩
      else
        (v.get ("breaks")).elts.mapM get_break
    else
      .ok []
  .ok (breaks.insertionSort break_le)

/-- `ForcedService`: optional exact / lower / upper service time bounds. -/
structure ForcedService where
  service_at : Option Nat
  service_after : Option Nat
  service_before : Option Nat
deriving DecidableEq, Repr

/-- `JOB_TYPE`. -/
inductive JOB_TYPE where
  | SINGLE
  | PICKUP
  | DELIVERY
deriving DecidableEq, Repr

/-- A vehicle step: start/end carry no id; job-like steps and breaks carry
an id.  All carry a `ForcedService`. -/
inductive VehicleStep where
  | start (fs : ForcedService)
  | end_ (fs : ForcedService)
  | job (t : JOB_TYPE) (id : Nat) (fs : ForcedService)
  | break_ (id : Nat) (fs : ForcedService)
deriving DecidableEq, Repr

/-- One optional forced-service field of a step. -/
def get_forced_service_field (json_step : JVal) (key : String) :
    Except Exception (Option Nat) :=
  if json_step.hasMember key then
    if !(json_step.get key).isUint then
      .error ⟨.INPUT, "Invalid " ++ key ++ " value."⟩
    else
      .ok (some (json_step.get key).getUint)
  else
    .ok none

/-- One element of a vehicle's `steps` array. -/
def get_step (v_id : Nat) (json_step : JVal) : Except Exception VehicleStep := do
  let fs_at ← get_forced_service_field json_step ("service_at")
  let fs_after ← get_forced_service_field json_step ("service_after")
  let fs_before ← get_forced_service_field json_step ("service_before")
  let fs : ForcedService := ⟨fs_at, fs_after, fs_before⟩
  let type_str ← get_string json_step ("type")
  if type_str == "start" then
    .ok (.start fs)
  else if type_str == "end" then
    .ok (.end_ fs)
  else if !json_step.hasMember ("id") || !(json_step.get ("id")).isUint64 then
    .error ⟨.INPUT, "Invalid id in steps for vehicle " ++ toString v_id ++ "."⟩
  else if type_str == "job" then
    .ok (.job .SINGLE (json_step.get ("id")).getUint64 fs)
  else if type_str == "pickup" then
    .ok (.job .PICKUP (json_step.get ("id")).getUint64 fs)
  else if type_str == "delivery" then
    .ok (.job .DELIVERY (json_step.get ("id")).getUint64 fs)
  else if type_str == "break" then
    .ok (.break_ (json_step.get ("id")).getUint64 fs)
  else
    .error ⟨.INPUT, "Invalid type in steps for vehicle " ++ toString v_id ++ "."⟩

/-- `get_vehicle_steps`: optional step array, processed positionally, the
output order matching declaration order. -/
def get_vehicle_steps (v : JVal) : Except Exception (List VehicleStep) :=
  if v.hasMember ("steps") then
    if !(v.get ("steps")).isArray then
      .error ⟨.INPUT, "Invalid steps for vehicle " ++
        toString (v.get ("id")).getUint64 ++ "."⟩
    else
      (v.get ("steps")).elts.mapM (get_step (v.get ("id")).getUint64)
  else
    .ok []

/-- A resolved location: a bare matrix index, bare coordinates, or both. -/
inductive Location where
  | index (i : Nat)
  | coords (c : Coordinates)
  | both (i : Nat) (c : Coordinates)
deriving DecidableEq

/-- The four-way optional start-location resolution of `get_vehicle`. -/
def get_vehicle_start (json_vehicle : JVal) (v_id : Nat) :
    Except Exception (Option Location) :=
  if json_vehicle.hasMember ("start_index") &&
      !(json_vehicle.get ("start_index")).isUint then
    .error ⟨.INPUT, "Invalid start_index for vehicle " ++ toString v_id ++ "."⟩
  else if json_vehicle.hasMember ("start_index") then
    if json_vehicle.hasMember ("start") then
      (parse_coordinates json_vehicle ("start")).map
        (fun c => some (.both (json_vehicle.get ("start_index")).getUint c))
    else
      .ok (some (.index (json_vehicle.get ("start_index")).getUint))
  else if json_vehicle.hasMember ("start") then
    (parse_coordinates json_vehicle ("start")).map (fun c => some (.coords c))
  else
    .ok none

/-- The four-way optional end-location resolution of `get_vehicle`.  (The
source's error message lacks the space after `vehicle`, kept as is.) -/
def get_vehicle_end (json_vehicle : JVal) (v_id : Nat) :
    Except Exception (Option Location) :=
  if json_vehicle.hasMember ("end_index") &&
      !(json_vehicle.get ("end_index")).isUint then
    .error ⟨.INPUT, "Invalid end_index for vehicle" ++ toString v_id ++ "."⟩
  else if json_vehicle.hasMember ("end_index") then
    if json_vehicle.hasMember ("end") then
      (parse_coordinates json_vehicle ("end")).map
        (fun c => some (.both (json_vehicle.get ("end_index")).getUint c))
    else
      .ok (some (.index (json_vehicle.get ("end_index")).getUint))
  else if json_vehicle.hasMember ("end") then
    (parse_coordinates json_vehicle ("end")).map (fun c => some (.coords c))
  else
    .ok none

/-- A vehicle of the aggregate model. -/
structure Vehicle where
  id : Nat
  start : Option Location
  end_ : Option Location
  capacity : List Nat
  skills : Finset ℕ
  tw : TimeWindow
  breaks : List Break
  description : String
  steps : List VehicleStep
deriving DecidableEq

/-- `get_vehicle`: id check, four-way start/end location resolution, then
capacity, skills, time window, breaks, description and steps. -/
def get_vehicle (json_vehicle : JVal) (amount_size : Nat) :
    Except Exception Vehicle := do
  check_id json_vehicle ("vehicle")
  let v_id := (json_vehicle.get ("id")).getUint64
  let start ← get_vehicle_start json_vehicle v_id
  let end? ← get_vehicle_end json_vehicle v_id
  let capacity ← get_amount json_vehicle ("capacity") amount_size
  let skills ← get_skills json_vehicle
  let tw ← get_vehicle_time_window json_vehicle
  let breaks ← get_vehicle_breaks json_vehicle
  let descr ← get_string json_vehicle ("description")
  let steps ← get_vehicle_steps json_vehicle
  .ok ⟨v_id, start, end?, capacity, skills, tw, breaks, descr, steps⟩

/-- A job of the aggregate model. -/
structure Job where
  id : Nat
  type : JOB_TYPE
  location : Location
  service : Nat
  delivery : List Nat
  pickup : List Nat
  skills : Finset ℕ
  priority : Nat
  tws : List TimeWindow
  description : String
deriving DecidableEq

/-- The retro-compatibility test for plain jobs: a deprecated `amount` key
with neither `delivery` nor `pickup` present. -/
def need_amount_compat (json_job : JVal) : Bool :=
  json_job.hasMember ("amount") && !json_job.hasMember ("delivery") &&
    !json_job.hasMember ("pickup")

/-- The delivery amount of a plain job: the `amount` field under the
retro-compatibility rule, the `delivery` field otherwise. -/
def get_job_delivery (json_job : JVal) (amount_size : Nat) :
    Except Exception (List Nat) :=
  if need_amount_compat json_job then
    get_amount json_job ("amount") amount_size
  else
    get_amount json_job ("delivery") amount_size

/-- A plain job in matrix mode: the location comes from a checked
`location_index`, an optional `location` array only adding coordinates. -/
def get_job_matrix (json_job : JVal) (amount_size matrix_size : Nat) :
    Except Exception Job := do
  check_id json_job ("job")
  check_location_index json_job ("job") matrix_size
  let job_loc_index := (json_job.get ("location_index")).getUint
  let loc ←
    if json_job.hasMember ("location") then
      (parse_coordinates json_job ("location")).map
        (fun c => Location.both job_loc_index c)
    else
      .ok (Location.index job_loc_index)
  let service ← get_service json_job
  let delivery ← get_job_delivery json_job amount_size
  let pickup ← get_amount json_job ("pickup") amount_size
  let skills ← get_skills json_job
  let priority ← get_priority json_job
  let tws ← get_job_time_windows json_job
  let descr ← get_string json_job ("description")
  .ok ⟨(json_job.get ("id")).getUint64, .SINGLE, loc, service, delivery,
    pickup, skills, priority, tws, descr⟩

/-- A plain job in routing mode: the location is a mandatory coordinate
array. -/
def get_job_routing (json_job : JVal) (amount_size : Nat) :
    Except Exception Job := do
  check_id json_job ("job")
  check_location json_job ("job")
  let c ← parse_coordinates json_job ("location")
  let service ← get_service json_job
  let delivery ← get_job_delivery json_job amount_size
  let pickup ← get_amount json_job ("pickup") amount_size
  let skills ← get_skills json_job
  let priority ← get_priority json_job
  let tws ← get_job_time_windows json_job
  let descr ← get_string json_job ("description")
  .ok ⟨(json_job.get ("id")).getUint64, .SINGLE, .coords c, service,
    delivery, pickup, skills, priority, tws, descr⟩

/-- Modelled from the spec: the `Job` constructor taking a `JOB_TYPE` and
one shared shipment `Amount` (defined outside the given source file)
stores the amount in the slot matching the type, the other slot being a
zero vector of the same length. -/
def shipment_delivery_slot (t : JOB_TYPE) (amount : List Nat) : List Nat :=
  if t = .DELIVERY then amount else List.replicate amount.length 0

/-- Modelled from the spec: the pickup slot of a shipment-side job; see
`shipment_delivery_slot`. -/
def shipment_pickup_slot (t : JOB_TYPE) (amount : List Nat) : List Nat :=
  if t = .PICKUP then amount else List.replicate amount.length 0

/-- One side (pickup or delivery) of a shipment in matrix mode; the
amount, skills and priority are shared at shipment level. -/
def get_shipment_side_matrix (json_side : JVal) (type : String)
    (t : JOB_TYPE) (amount : List Nat) (skills : Finset ℕ) (priority : Nat)
    (matrix_size : Nat) : Except Exception Job := do
  check_id json_side type
  check_location_index json_side type matrix_size
  let loc_index := (json_side.get ("location_index")).getUint
  let loc ←
    if json_side.hasMember ("location") then
      (parse_coordinates json_side ("location")).map
        (fun c => Location.both loc_index c)
    else
      .ok (Location.index loc_index)
  let service ← get_service json_side
  let tws ← get_job_time_windows json_side
  let descr ← get_string json_side ("description")
  .ok ⟨(json_side.get ("id")).getUint64, t, loc, service,
    shipment_delivery_slot t amount, shipment_pickup_slot t amount,
    skills, priority, tws, descr⟩

/-- One side of a shipment in routing mode. -/
def get_shipment_side_routing (json_side : JVal) (type : String)
    (t : JOB_TYPE) (amount : List Nat) (skills : Finset ℕ) (priority : Nat) :
    Except Exception Job := do
  check_id json_side type
  check_location json_side type
  let c ← parse_coordinates json_side ("location")
  let service ← get_service json_side
  let tws ← get_job_time_windows json_side
  let descr ← get_string json_side ("description")
  .ok ⟨(json_side.get ("id")).getUint64, t, .coords c, service,
    shipment_delivery_slot t amount, shipment_pickup_slot t amount,
    skills, priority, tws, descr⟩

/-- A shipment in matrix mode: shared amount/skills/priority, then the
pickup and delivery sides. -/
def get_shipment_matrix (json_shipment : JVal) (amount_size matrix_size : Nat) :
    Except Exception (Job × Job) := do
  check_shipment json_shipment
  let amount ← get_amount json_shipment ("amount") amount_size
  let skills ← get_skills json_shipment
  let priority ← get_priority json_shipment
  let pickup ← get_shipment_side_matrix (json_shipment.get ("pickup"))
    ("pickup") .PICKUP amount skills priority matrix_size
  let delivery ← get_shipment_side_matrix (json_shipment.get ("delivery"))
    ("delivery") .DELIVERY amount skills priority matrix_size
  .ok (pickup, delivery)

/-- A shipment in routing mode. -/
def get_shipment_routing (json_shipment : JVal) (amount_size : Nat) :
    Except Exception (Job × Job) := do
  check_shipment json_shipment
  let amount ← get_amount json_shipment ("amount") amount_size
  let skills ← get_skills json_shipment
  let priority ← get_priority json_shipment
  let pickup ← get_shipment_side_routing (json_shipment.get ("pickup"))
    ("pickup") .PICKUP amount skills priority
  let delivery ← get_shipment_side_routing (json_shipment.get ("delivery"))
    ("delivery") .DELIVERY amount skills priority
  .ok (pickup, delivery)

/-- The entries of one matrix row, with the row and column indices carried
for the error messages. -/
def parse_matrix_entries (i : Nat) : Nat → List JVal → Except Exception (List Nat)
  | _, [] => .ok []
  | j, e :: rest =>
    if !e.isUint then
      .error ⟨.INPUT, "Invalid matrix entry (" ++ toString i ++ "," ++
        toString j ++ ")."⟩
    else do
      let tail ← parse_matrix_entries i (j + 1) rest
      .ok (e.getUint :: tail)

/-- The rows of the custom matrix: each row must be an array of exactly
`matrix_size` non-negative integers. -/
def parse_matrix_rows (matrix_size : Nat) : Nat → List JVal →
    Except Exception (List (List Nat))
  | _, [] => .ok []
  | i, row :: rest =>
    if !row.isArray || row.size ≠ matrix_size then
      .error ⟨.INPUT, "Invalid matrix line " ++ toString i ++ "."⟩
    else do
      let r ← parse_matrix_entries i 0 row.elts
      let tail ← parse_matrix_rows matrix_size (i + 1) rest
      .ok (r :: tail)

/-- Modelled from the spec: the configured default profile name used when
a vehicle's profile string is empty (`DEFAULT_PROFILE`, defined outside
the given source file). -/
def DEFAULT_PROFILE : String := "car"

/-- The vehicle loop of `parse`: build each vehicle and fold the common
profile, which is set on the first iteration only. -/
def add_vehicles (amount_size : Nat) :
    List JVal → String → Except Exception (List Vehicle × String)
  | [], common_profile => .ok ([], common_profile)
  | json_vehicle :: rest, common_profile => do
    let v ← get_vehicle json_vehicle amount_size
    let current ← get_string json_vehicle ("profile")
    let current := if current.isEmpty then DEFAULT_PROFILE else current
    let common := if common_profile.isEmpty then current else common_profile
    let (vl, p) ← add_vehicles amount_size rest common
    .ok (v :: vl, p)

/-- The configured router kind. -/
inductive ROUTER where
  | OSRM
  | LIBOSRM
  | ORS
deriving DecidableEq, Repr

/-- The selected routing capability, carrying the profile it was built
from (and the server address for the HTTP variants). -/
inductive RoutingWrapper where
  | osrmRouted (profile : String) (server : String)
  | libosrm (profile : String)
  | ors (profile : String) (server : String)
deriving DecidableEq, Repr

/-- The profile a routing wrapper was constructed from. -/
def RoutingWrapper.profile : RoutingWrapper → String
  | .osrmRouted p _ => p
  | .libosrm p => p
  | .ors p _ => p

/-- The command-line arguments consumed by `parse`: the (already parsed)
input document, the router kind, the profile-to-server map and the
geometry flag. -/
structure CLArgs where
  input : JVal
  router : ROUTER
  servers : List (String × String)
  geometry : Bool

/-- `std::unordered_map::find` on the profile-to-server map. -/
def servers_find (servers : List (String × String)) (profile : String) :
    Option String :=
  (servers.find? (fun p => p.1 == profile)).map (fun p => p.2)

/-- The routing-wrapper selection at the end of `parse`.  The embedded
(libosrm) variant's in-process construction is external; it is modelled
as succeeding (its failure path raises a ROUTING error carrying the same
profile and is never reached by any property below). -/
def set_routing_wrapper (router : ROUTER) (servers : List (String × String))
    (common_profile : String) : Except Exception RoutingWrapper :=
  match router with
  | .OSRM =>
    match servers_find servers common_profile with
    | none => .error ⟨.INPUT, "Invalid profile: " ++ common_profile ++ "."⟩
    | some addr => .ok (.osrmRouted common_profile addr)
  | .LIBOSRM => .ok (.libosrm common_profile)
  | .ORS =>
    match servers_find servers common_profile with
    | none => .error ⟨.INPUT, "Invalid profile: " ++ common_profile ++ "."⟩
    | some addr => .ok (.ors common_profile addr)

/-- The aggregate model produced by `parse`. -/
structure Input where
  amount_size : Nat
  geometry : Bool
  vehicles : List Vehicle
  jobs : List Job
  shipments : List (Job × Job)
  matrix : Option (List (List Nat))
  routing : Option RoutingWrapper
deriving DecidableEq

/-- Whether the document has a non-empty `jobs` array. -/
def has_jobs (json_input : JVal) : Bool :=
  json_input.hasMember ("jobs") && (json_input.get ("jobs")).isArray &&
    (json_input.get ("jobs")).size != 0

/-- Whether the document has a non-empty `shipments` array. -/
def has_shipments (json_input : JVal) : Bool :=
  json_input.hasMember ("shipments") &&
    (json_input.get ("shipments")).isArray &&
    (json_input.get ("shipments")).size != 0

/-- The capacity dimensionality: the first vehicle's capacity array length
when present as a non-empty array, 0 otherwise. -/
def infer_amount_size (first_vehicle : JVal) : Nat :=
  if first_vehicle.hasMember ("capacity") &&
      (first_vehicle.get ("capacity")).isArray &&
      0 < (first_vehicle.get ("capacity")).size then
    (first_vehicle.get ("capacity")).size
  else
    0

/-- The matrix branch of `parse`: load the square matrix, then build jobs
and shipments from checked location indices. -/
def parse_matrix_mode (json_input : JVal) (amount_size : Nat) :
    Except Exception (List (List Nat) × List Job × List (Job × Job)) := do
  if !(json_input.get ("matrix")).isArray then
    throw ⟨.INPUT, "Invalid matrix."⟩
  let matrix_size := (json_input.get ("matrix")).size
  let matrix ← parse_matrix_rows matrix_size 0 (json_input.get ("matrix")).elts
  let jobs ←
    if has_jobs json_input then
      (json_input.get ("jobs")).elts.mapM
        (fun j => get_job_matrix j amount_size matrix_size)
    else
      .ok []
  let shipments ←
    if has_shipments json_input then
      (json_input.get ("shipments")).elts.mapM
        (fun s => get_shipment_matrix s amount_size matrix_size)
    else
      .ok []
  .ok (matrix, jobs, shipments)

/-- The routing branch of `parse`: build jobs and shipments from mandatory
coordinate arrays. -/
def parse_routing_mode (json_input : JVal) (amount_size : Nat) :
    Except Exception (List Job × List (Job × Job)) := do
  let jobs ←
    if has_jobs json_input then
      (json_input.get ("jobs")).elts.mapM
        (fun j => get_job_routing j amount_size)
    else
      .ok []
  let shipments ←
    if has_shipments json_input then
      (json_input.get ("shipments")).elts.mapM
        (fun s => get_shipment_routing s amount_size)
    else
      .ok []
  .ok (jobs, shipments)

/-- The top-level assembler `parse`: document-level checks, capacity
dimensionality inference, vehicle building with the common-profile fold,
the matrix-vs-routing branch, and routing-wrapper selection. -/
def parse (cl_args : CLArgs) : Except Exception Input := do
  let json_input := cl_args.input
  if !has_jobs json_input && !has_shipments json_input then
    throw ⟨.INPUT, "Invalid jobs or shipments."⟩
  if !json_input.hasMember ("vehicles") ||
      !(json_input.get ("vehicles")).isArray ||
      (json_input.get ("vehicles")).size == 0 then
    throw ⟨.INPUT, "Invalid vehicles."⟩
  let first_vehicle := (json_input.get ("vehicles")).at 0
  check_id first_vehicle ("vehicle")
  let amount_size := infer_amount_size first_vehicle
  let (vehicles, common_profile) ←
    add_vehicles amount_size (json_input.get ("vehicles")).elts ""
  let (matrix?, jobs, shipments) ←
    if json_input.hasMember ("matrix") then
      (parse_matrix_mode json_input amount_size).map
        (fun r => (some r.1, r.2.1, r.2.2))
    else
      (parse_routing_mode json_input amount_size).map
        (fun r => (none, r.1, r.2))
  let routing_wrapper ←
    set_routing_wrapper cl_args.router cl_args.servers common_profile
  .ok ⟨amount_size, cl_args.geometry, vehicles, jobs, shipments, matrix?,
    some routing_wrapper⟩

/-- Replace (or add) the `profile` field of a vehicle object by the string
`s`; non-objects are left unchanged.  Used to state that the profiles of
vehicles after the first never influence the parse result. -/
def set_profile (j : JVal) (s : String) : JVal :=
  match j with
  | .obj mem => .obj ((mem.filter (fun p => !(p.1 == ("profile")))) ++
      [(("profile"), .str s)])
  | v => v

/-- Remove any `location_index` member of an object; non-objects are left
unchanged.  Used to state that routing mode never reads the field. -/
def eraseLI (j : JVal) : JVal :=
  match j with
  | .obj mem => .obj (mem.filter (fun p => !(p.1 == ("location_index"))))
  | v => v

/-- Apply `f` to every element of an array value. -/
def scrub_arr (f : JVal → JVal) (v : JVal) : JVal :=
  match v with
  | .arr xs => .arr (xs.map f)
  | w => w

/-- Remove the `location_index` members of a shipment's `pickup` and
`delivery` sub-objects. -/
def scrub_shipment_field (k : String) (v : JVal) : JVal :=
  if k == ("pickup") || k == ("delivery") then eraseLI v else v

/-- See `scrub_shipment_field`. -/
def scrub_shipment (s : JVal) : JVal :=
  match s with
  | .obj mem => .obj (mem.map (fun p => (p.1, scrub_shipment_field p.1 p.2)))
  | v => v

/-- The per-field document scrub: drop `location_index` from every job and
from every shipment side, leave everything else unchanged. -/
def scrub_doc_field (k : String) (v : JVal) : JVal :=
  if k == ("jobs") then scrub_arr eraseLI v
  else if k == ("shipments") then scrub_arr scrub_shipment v
  else v

/-- Remove every job-level, pickup-level and delivery-level
`location_index` member of a document. -/
def scrub_doc (d : JVal) : JVal :=
  match d with
  | .obj mem => .obj (mem.map (fun p => (p.1, scrub_doc_field p.1 p.2)))
  | v => v

/-- A result that can only fail with an INPUT-kind error. -/
def InputOnly {α : Type} (r : Except Exception α) : Prop :=
  ∀ e, r = .error e → e.error = .INPUT

/-- Decidable equality of results, so that concrete runs of the parser
can be checked by evaluation. -/
def exceptDecEq {ε α : Type} [DecidableEq ε] [DecidableEq α] :
    (a b : Except ε α) → Decidable (a = b)
  | .error a, .error b =>
    if h : a = b then .isTrue (by rw [h]) else .isFalse (by simp [h])
  | .error _, .ok _ => .isFalse (by simp)
  | .ok _, .error _ => .isFalse (by simp)
  | .ok a, .ok b =>
    if h : a = b then .isTrue (by rw [h]) else .isFalse (by simp [h])

instance {ε α : Type} [DecidableEq ε] [DecidableEq α] :
    DecidableEq (Except ε α) :=
  exceptDecEq

/-- The document of the spec's first scenario: one vehicle with capacity
`[2]`, one job, a 2×2 matrix. -/
def doc_scenario1 : JVal := .obj [
  (("jobs"), .arr [.obj [(("id"), .num 1), (("location_index"), .num 0)]]),
  (("vehicles"), .arr [.obj [(("id"), .num 1), (("start_index"), .num 0),
    (("capacity"), .arr [.num 2])]]),
  (("matrix"), .arr [.arr [.num 0, .num 5], .arr [.num 5, .num 0]])]

/-- Arguments for `doc_scenario1` with an OSRM router configured for the
default profile. -/
def args_scenario1 : CLArgs := ⟨doc_scenario1, .OSRM, [(("car"), ("srv"))], false⟩

/-- The aggregate `parse` produces on `args_scenario1`. -/
def input_scenario1 : Input :=
  ⟨1, false,
   [⟨1, some (.index 0), none, [2], ∅, ⟨0, DEFAULT_TW_END⟩, [], "", []⟩],
   [⟨1, .SINGLE, .index 0, 0, [0], [0], ∅, 0, [⟨0, DEFAULT_TW_END⟩], ""⟩],
   [], some [[0, 5], [5, 0]], some (.osrmRouted ("car") ("srv"))⟩

/-- A document whose vehicle carries `start_index` 5 against a 1×1
matrix: the vehicle index is stored without any bound check. -/
def doc_vehicle_oob : JVal := .obj [
  (("jobs"), .arr [.obj [(("id"), .num 1), (("location_index"), .num 0)]]),
  (("vehicles"), .arr [.obj [(("id"), .num 1), (("start_index"), .num 5)]]),
  (("matrix"), .arr [.arr [.num 0]])]

/-- Arguments for `doc_vehicle_oob`. -/
def args_vehicle_oob : CLArgs := ⟨doc_vehicle_oob, .OSRM, [(("car"), ("srv"))], false⟩

/-- The aggregate `parse` produces on `args_vehicle_oob`: the stored
vehicle start location is index 5, beyond the matrix size 1. -/
def input_vehicle_oob : Input :=
  ⟨0, false,
   [⟨1, some (.index 5), none, [], ∅, ⟨0, DEFAULT_TW_END⟩, [], "", []⟩],
   [⟨1, .SINGLE, .index 0, 0, [], [], ∅, 0, [⟨0, DEFAULT_TW_END⟩], ""⟩],
   [], some [[0]], some (.osrmRouted ("car") ("srv"))⟩

/-- A routing-mode document with two jobs sharing id 1 and two vehicles
sharing id 1, the second vehicle declaring a different profile. -/
def doc_dup_ids : JVal := .obj [
  (("jobs"), .arr [.obj [(("id"), .num 1), (("location"), .arr [.num 2, .num 48])],
                   .obj [(("id"), .num 1), (("location"), .arr [.num 3, .num 49])]]),
  (("vehicles"), .arr [.obj [(("id"), .num 1), (("profile"), .str ("car"))],
                       .obj [(("id"), .num 1), (("profile"), .str ("bike"))]])]

/-- Arguments for `doc_dup_ids`. -/
def args_dup_ids : CLArgs := ⟨doc_dup_ids, .OSRM, [(("car"), ("srv"))], false⟩

/-- The aggregate `parse` produces on `args_dup_ids`: both duplicated ids
are kept, and the routing profile is the first vehicle's. -/
def input_dup_ids : Input :=
  ⟨0, false,
   [⟨1, none, none, [], ∅, ⟨0, DEFAULT_TW_END⟩, [], "", []⟩,
    ⟨1, none, none, [], ∅, ⟨0, DEFAULT_TW_END⟩, [], "", []⟩],
   [⟨1, .SINGLE, .coords (2, 48), 0, [], [], ∅, 0, [⟨0, DEFAULT_TW_END⟩], ""⟩,
    ⟨1, .SINGLE, .coords (3, 49), 0, [], [], ∅, 0, [⟨0, DEFAULT_TW_END⟩], ""⟩],
   [], none, some (.osrmRouted ("car") ("srv"))⟩

/-! ## Infrastructure lemmas -/

theorem ebind_ok {α β : Type} {x : Except Exception α}
    {f : α → Except Exception β} {b : β} :
    (x >>= f = .ok b) ↔ ∃ a, x = .ok a ∧ f a = .ok b := by
  cases x <;> simp [Bind.bind, Except.bind]

theorem ebind_err {α β : Type} {x : Except Exception α}
    {f : α → Except Exception β} {e : Exception} :
    (x >>= f = .error e) ↔ x = .error e ∨ ∃ a, x = .ok a ∧ f a = .error e := by
  cases x <;> simp [Bind.bind, Except.bind]

theorem emap_ok {α β : Type} {x : Except Exception α} {f : α → β} {b : β} :
    (x.map f = .ok b) ↔ ∃ a, x = .ok a ∧ f a = b := by
  cases x <;> simp [Except.map]

theorem emap_err {α β : Type} {x : Except Exception α} {f : α → β}
    {e : Exception} : (x.map f = .error e) ↔ x = .error e := by
  cases x <;> simp [Except.map]

theorem epure {α : Type} (a : α) : (pure a : Except Exception α) = .ok a := rfl

theorem ethrow {α : Type} (e : Exception) :
    (throw e : Except Exception α) = .error e := rfl

theorem mapM_ok_mem {α β : Type} {f : α → Except Exception β} :
    ∀ {xs : List α} {ys : List β}, xs.mapM f = .ok ys →
      ∀ y ∈ ys, ∃ x ∈ xs, f x = .ok y := by
  intro xs
  induction xs with
  | nil =>
    intro ys h y hy
    simp only [List.mapM_nil, epure, Except.ok.injEq] at h
    subst h
    simp at hy
  | cons x xs ih =>
    intro ys h y hy
    rw [List.mapM_cons, ebind_ok] at h
    obtain ⟨b, hb, h⟩ := h
    rw [ebind_ok] at h
    obtain ⟨bs, hbs, h⟩ := h
    rw [epure, Except.ok.injEq] at h
    subst h
    rcases List.mem_cons.1 hy with rfl | hy
    · exact ⟨x, List.mem_cons_self x xs, hb⟩
    · obtain ⟨x', hx', hfx'⟩ := ih hbs y hy
      exact ⟨x', List.mem_cons_of_mem x hx', hfx'⟩

theorem mapM_cons_ok {α β : Type} {f : α → Except Exception β} {x : α}
    {xs : List α} {ys : List β} (h : (x :: xs).mapM f = .ok ys) :
    ∃ y ys', f x = .ok y ∧ xs.mapM f = .ok ys' ∧ ys = y :: ys' := by
  rw [List.mapM_cons, ebind_ok] at h
  obtain ⟨b, hb, h⟩ := h
  rw [ebind_ok] at h
  obtain ⟨bs, hbs, h⟩ := h
  rw [epure, Except.ok.injEq] at h
  exact ⟨b, bs, hb, hbs, h.symm⟩

theorem input_only_ok {α : Type} (a : α) : InputOnly (.ok a) := by
  intro e he
  simp at he

theorem input_only_pure {α : Type} (a : α) :
    InputOnly (pure a : Except Exception α) :=
  input_only_ok a

theorem input_only_error (m : String) {α : Type} :
    InputOnly (.error ⟨.INPUT, m⟩ : Except Exception α) := by
  intro e he
  simp only [Except.error.injEq] at he
  rw [← he]

theorem input_only_bind {α β : Type} {x : Except Exception α}
    {f : α → Except Exception β} (hx : InputOnly x)
    (hf : ∀ a, InputOnly (f a)) : InputOnly (x >>= f) := by
  intro e he
  rw [ebind_err] at he
  rcases he with he | ⟨a, _, he⟩
  · exact hx e he
  · exact hf a e he

theorem input_only_map {α β : Type} {x : Except Exception α} {f : α → β}
    (hx : InputOnly x) : InputOnly (x.map f) := by
  intro e he
  rw [emap_err] at he
  exact hx e he

theorem input_only_mapM {α β : Type} {f : α → Except Exception β}
    (hf : ∀ a, InputOnly (f a)) : ∀ xs : List α, InputOnly (xs.mapM f)
  | [] => by
    intro e he
    simp [List.mapM, List.mapM.loop, epure] at he
  | x :: xs => by
    rw [List.mapM_cons]
    exact input_only_bind (hf x) fun y =>
      input_only_bind (input_only_mapM hf xs) fun ys => input_only_pure _

/-! ## Every failure of the parser is an INPUT-kind error

(The only ROUTING-kind failures of the source are inside the embedded
libosrm construction, which is external and modelled as succeeding.) -/

theorem input_only_parse_coordinates (o : JVal) (k : String) :
    InputOnly (parse_coordinates o k) := by
  unfold parse_coordinates
  split
  · exact input_only_error _
  · exact input_only_ok _

theorem input_only_get_string (o : JVal) (k : String) :
    InputOnly (get_string o k) := by
  unfold get_string
  split
  · split
    · exact input_only_error _
    · exact input_only_ok _
  · exact input_only_ok _

theorem input_only_get_amount_elts (k : String) :
    ∀ l : List JVal, InputOnly (get_amount_elts k l)
  | [] => input_only_ok _
  | e :: rest => by
    unfold get_amount_elts
    split
    · exact input_only_error _
    · exact input_only_bind (input_only_get_amount_elts k rest) fun _ =>
        input_only_ok _

theorem input_only_get_amount (o : JVal) (k : String) (s : Nat) :
    InputOnly (get_amount o k s) := by
  unfold get_amount
  split
  · split
    · exact input_only_error _
    · split
      · exact input_only_error _
      · exact input_only_get_amount_elts k _
  · exact input_only_ok _

theorem input_only_get_skills_elts :
    ∀ l : List JVal, InputOnly (get_skills_elts l)
  | [] => input_only_ok _
  | e :: rest => by
    unfold get_skills_elts
    split
    · exact input_only_error _
    · exact input_only_bind (input_only_get_skills_elts rest) fun _ =>
        input_only_ok _

theorem input_only_get_skills (o : JVal) : InputOnly (get_skills o) := by
  unfold get_skills
  split
  · split
    · exact input_only_error _
    · exact input_only_get_skills_elts _
  · exact input_only_ok _

theorem input_only_get_service (o : JVal) : InputOnly (get_service o) := by
  unfold get_service
  split
  · split
    · exact input_only_error _
    · exact input_only_ok _
  · exact input_only_ok _

theorem input_only_get_priority (o : JVal) : InputOnly (get_priority o) := by
  unfold get_priority
  split
  · split
    · exact input_only_error _
    · split
      · exact input_only_error _
      · exact input_only_ok _
  · exact input_only_ok _

theorem input_only_check_id (v : JVal) (t : String) :
    InputOnly (check_id v t) := by
  unfold check_id
  split
  · exact input_only_error _
  · split
    · exact input_only_error _
    · exact input_only_ok _

theorem input_only_check_shipment (v : JVal) :
    InputOnly (check_shipment v) := by
  unfold check_shipment
  split
  · exact input_only_error _
  · split
    · exact input_only_error _
    · split
      · exact input_only_error _
      · exact input_only_ok _

theorem input_only_check_location_index (v : JVal) (t : String) (m : Nat) :
    InputOnly (check_location_index v t m) := by
  unfold check_location_index
  split
  · exact input_only_error _
  · split
    · exact input_only_error _
    · exact input_only_ok _

theorem input_only_check_location (v : JVal) (t : String) :
    InputOnly (check_location v t) := by
  unfold check_location
  split
  · exact input_only_error _
  · exact input_only_ok _

theorem input_only_get_time_window (tw : JVal) :
    InputOnly (get_time_window tw) := by
  unfold get_time_window
  split
  · exact input_only_error _
  · exact input_only_ok _

theorem input_only_get_vehicle_time_window (v : JVal) :
    InputOnly (get_vehicle_time_window v) := by
  unfold get_vehicle_time_window
  split
  · exact input_only_get_time_window _
  · exact input_only_ok _

theorem input_only_get_job_time_windows (j : JVal) :
    InputOnly (get_job_time_windows j) := by
  unfold get_job_time_windows
  split
  · split
    · exact input_only_error _
    · exact input_only_bind
        (input_only_mapM input_only_get_time_window _) fun _ =>
        input_only_ok _
  · exact input_only_ok _

theorem input_only_get_break_time_windows (b : JVal) :
    InputOnly (get_break_time_windows b) := by
  unfold get_break_time_windows
  split
  · exact input_only_error _
  · exact input_only_bind
      (input_only_mapM input_only_get_time_window _) fun _ =>
      input_only_ok _

theorem input_only_get_break (b : JVal) : InputOnly (get_break b) := by
  unfold get_break
  exact input_only_bind (input_only_check_id _ _) fun _ =>
    input_only_bind (input_only_get_break_time_windows _) fun _ =>
    input_only_bind (input_only_get_service _) fun _ =>
    input_only_bind (input_only_get_string _ _) fun _ =>
    input_only_ok _

theorem input_only_get_vehicle_breaks (v : JVal) :
    InputOnly (get_vehicle_breaks v) := by
  unfold get_vehicle_breaks
  dsimp only
  split
  · split
    · exact input_only_bind (input_only_error _) fun _ => input_only_ok _
    · exact input_only_bind (input_only_mapM input_only_get_break _) fun _ =>
        input_only_ok _
  · exact input_only_bind (input_only_ok _) fun _ => input_only_ok _

theorem input_only_get_forced_service_field (o : JVal) (k : String) :
    InputOnly (get_forced_service_field o k) := by
  unfold get_forced_service_field
  split
  · split
    · exact input_only_error _
    · exact input_only_ok _
  · exact input_only_ok _

theorem input_only_get_step (id : Nat) (s : JVal) :
    InputOnly (get_step id s) := by
  unfold get_step
  refine input_only_bind (input_only_get_forced_service_field _ _) fun _ => ?_
  refine input_only_bind (input_only_get_forced_service_field _ _) fun _ => ?_
  refine input_only_bind (input_only_get_forced_service_field _ _) fun _ => ?_
  refine input_only_bind (input_only_get_string _ _) fun _ => ?_
  split
  · exact input_only_ok _
  · split
    · exact input_only_ok _
    · split
      · exact input_only_error _
      · split
        · exact input_only_ok _
        · split
          · exact input_only_ok _
          · split
            · exact input_only_ok _
            · split
              · exact input_only_ok _
              · exact input_only_error _

theorem input_only_get_vehicle_steps (v : JVal) :
    InputOnly (get_vehicle_steps v) := by
  unfold get_vehicle_steps
  split
  · split
    · exact input_only_error _
    · exact input_only_mapM (input_only_get_step _) _
  · exact input_only_ok _

theorem input_only_get_vehicle_start (v : JVal) (id : Nat) :
    InputOnly (get_vehicle_start v id) := by
  unfold get_vehicle_start
  split
  · exact input_only_error _
  · split
    · split
      · exact input_only_map (input_only_parse_coordinates _ _)
      · exact input_only_ok _
    · split
      · exact input_only_map (input_only_parse_coordinates _ _)
      · exact input_only_ok _

theorem input_only_get_vehicle_end (v : JVal) (id : Nat) :
    InputOnly (get_vehicle_end v id) := by
  unfold get_vehicle_end
  split
  · exact input_only_error _
  · split
    · split
      · exact input_only_map (input_only_parse_coordinates _ _)
      · exact input_only_ok _
    · split
      · exact input_only_map (input_only_parse_coordinates _ _)
      · exact input_only_ok _

theorem input_only_get_vehicle (v : JVal) (s : Nat) :
    InputOnly (get_vehicle v s) := by
  unfold get_vehicle
  exact input_only_bind (input_only_check_id _ _) fun _ =>
    input_only_bind (input_only_get_vehicle_start _ _) fun _ =>
    input_only_bind (input_only_get_vehicle_end _ _) fun _ =>
    input_only_bind (input_only_get_amount _ _ _) fun _ =>
    input_only_bind (input_only_get_skills _) fun _ =>
    input_only_bind (input_only_get_vehicle_time_window _) fun _ =>
    input_only_bind (input_only_get_vehicle_breaks _) fun _ =>
    input_only_bind (input_only_get_string _ _) fun _ =>
    input_only_bind (input_only_get_vehicle_steps _) fun _ =>
    input_only_ok _

theorem input_only_get_job_delivery (j : JVal) (s : Nat) :
    InputOnly (get_job_delivery j s) := by
  unfold get_job_delivery
  split
  · exact input_only_get_amount _ _ _
  · exact input_only_get_amount _ _ _

theorem input_only_get_job_matrix (j : JVal) (s m : Nat) :
    InputOnly (get_job_matrix j s m) := by
  unfold get_job_matrix
  refine input_only_bind (input_only_check_id _ _) fun _ => ?_
  refine input_only_bind (input_only_check_location_index _ _ _) fun _ => ?_
  dsimp only
  have tail : ∀ loc : Location, InputOnly
      (do
        let service ← get_service j
        let delivery ← get_job_delivery j s
        let pickup ← get_amount j ("pickup") s
        let skills ← get_skills j
        let priority ← get_priority j
        let tws ← get_job_time_windows j
        let descr ← get_string j ("description")
        (Except.ok ⟨(j.get ("id")).getUint64, JOB_TYPE.SINGLE, loc, service,
          delivery, pickup, skills, priority, tws, descr⟩ :
          Except Exception Job)) := fun loc =>
    input_only_bind (input_only_get_service _) fun _ =>
      input_only_bind (input_only_get_job_delivery _ _) fun _ =>
      input_only_bind (input_only_get_amount _ _ _) fun _ =>
      input_only_bind (input_only_get_skills _) fun _ =>
      input_only_bind (input_only_get_priority _) fun _ =>
      input_only_bind (input_only_get_job_time_windows _) fun _ =>
      input_only_bind (input_only_get_string _ _) fun _ =>
      input_only_ok _
  split
  · exact input_only_bind (input_only_map (input_only_parse_coordinates _ _))
      fun loc => tail loc
  · exact input_only_bind (input_only_ok _) fun loc => tail loc

theorem input_only_get_job_routing (j : JVal) (s : Nat) :
    InputOnly (get_job_routing j s) := by
  unfold get_job_routing
  exact input_only_bind (input_only_check_id _ _) fun _ =>
    input_only_bind (input_only_check_location _ _) fun _ =>
    input_only_bind (input_only_parse_coordinates _ _) fun _ =>
    input_only_bind (input_only_get_service _) fun _ =>
    input_only_bind (input_only_get_job_delivery _ _) fun _ =>
    input_only_bind (input_only_get_amount _ _ _) fun _ =>
    input_only_bind (input_only_get_skills _) fun _ =>
    input_only_bind (input_only_get_priority _) fun _ =>
    input_only_bind (input_only_get_job_time_windows _) fun _ =>
    input_only_bind (input_only_get_string _ _) fun _ =>
    input_only_ok _

theorem input_only_get_shipment_side_matrix (j : JVal) (t : String)
    (ty : JOB_TYPE) (a : List Nat) (sk : Finset ℕ) (p m : Nat) :
    InputOnly (get_shipment_side_matrix j t ty a sk p m) := by
  unfold get_shipment_side_matrix
  refine input_only_bind (input_only_check_id _ _) fun _ => ?_
  refine input_only_bind (input_only_check_location_index _ _ _) fun _ => ?_
  dsimp only
  have tail : ∀ loc : Location, InputOnly
      (do
        let service ← get_service j
        let tws ← get_job_time_windows j
        let descr ← get_string j ("description")
        (Except.ok ⟨(j.get ("id")).getUint64, ty, loc, service,
          shipment_delivery_slot ty a, shipment_pickup_slot ty a,
          sk, p, tws, descr⟩ : Except Exception Job)) := fun loc =>
    input_only_bind (input_only_get_service _) fun _ =>
      input_only_bind (input_only_get_job_time_windows _) fun _ =>
      input_only_bind (input_only_get_string _ _) fun _ =>
      input_only_ok _
  split
  · exact input_only_bind (input_only_map (input_only_parse_coordinates _ _))
      fun loc => tail loc
  · exact input_only_bind (input_only_ok _) fun loc => tail loc

theorem input_only_get_shipment_side_routing (j : JVal) (t : String)
    (ty : JOB_TYPE) (a : List Nat) (sk : Finset ℕ) (p : Nat) :
    InputOnly (get_shipment_side_routing j t ty a sk p) := by
  unfold get_shipment_side_routing
  exact input_only_bind (input_only_check_id _ _) fun _ =>
    input_only_bind (input_only_check_location _ _) fun _ =>
    input_only_bind (input_only_parse_coordinates _ _) fun _ =>
    input_only_bind (input_only_get_service _) fun _ =>
    input_only_bind (input_only_get_job_time_windows _) fun _ =>
    input_only_bind (input_only_get_string _ _) fun _ =>
    input_only_ok _

theorem input_only_get_shipment_matrix (s : JVal) (a m : Nat) :
    InputOnly (get_shipment_matrix s a m) := by
  unfold get_shipment_matrix
  exact input_only_bind (input_only_check_shipment _) fun _ =>
    input_only_bind (input_only_get_amount _ _ _) fun _ =>
    input_only_bind (input_only_get_skills _) fun _ =>
    input_only_bind (input_only_get_priority _) fun _ =>
    input_only_bind (input_only_get_shipment_side_matrix _ _ _ _ _ _ _) fun _ =>
    input_only_bind (input_only_get_shipment_side_matrix _ _ _ _ _ _ _) fun _ =>
    input_only_ok _

theorem input_only_get_shipment_routing (s : JVal) (a : Nat) :
    InputOnly (get_shipment_routing s a) := by
  unfold get_shipment_routing
  exact input_only_bind (input_only_check_shipment _) fun _ =>
    input_only_bind (input_only_get_amount _ _ _) fun _ =>
    input_only_bind (input_only_get_skills _) fun _ =>
    input_only_bind (input_only_get_priority _) fun _ =>
    input_only_bind (input_only_get_shipment_side_routing _ _ _ _ _ _) fun _ =>
    input_only_bind (input_only_get_shipment_side_routing _ _ _ _ _ _) fun _ =>
    input_only_ok _

theorem input_only_parse_matrix_entries (i : Nat) :
    ∀ (j : Nat) (l : List JVal), InputOnly (parse_matrix_entries i j l)
  | _, [] => input_only_ok _
  | j, e :: rest => by
    unfold parse_matrix_entries
    split
    · exact input_only_error _
    · exact input_only_bind (input_only_parse_matrix_entries i (j + 1) rest)
        fun _ => input_only_ok _

theorem input_only_parse_matrix_rows (m : Nat) :
    ∀ (i : Nat) (l : List JVal), InputOnly (parse_matrix_rows m i l)
  | _, [] => input_only_ok _
  | i, row :: rest => by
    unfold parse_matrix_rows
    split
    · exact input_only_error _
    · exact input_only_bind (input_only_parse_matrix_entries i 0 _) fun _ =>
        input_only_bind (input_only_parse_matrix_rows m (i + 1) rest) fun _ =>
        input_only_ok _

theorem input_only_add_vehicles (s : Nat) :
    ∀ (l : List JVal) (c : String), InputOnly (add_vehicles s l c)
  | [], _ => input_only_ok _
  | jv :: rest, c => by
    unfold add_vehicles
    exact input_only_bind (input_only_get_vehicle _ _) fun _ =>
      input_only_bind (input_only_get_string _ _) fun _ =>
      input_only_bind (input_only_add_vehicles s rest _) fun _ =>
      input_only_ok _

theorem input_only_set_routing_wrapper (r : ROUTER)
    (srv : List (String × String)) (p : String) :
    InputOnly (set_routing_wrapper r srv p) := by
  unfold set_routing_wrapper
  cases r
  · dsimp only
    split
    · exact input_only_error _
    · exact input_only_ok _
  · exact input_only_ok _
  · dsimp only
    split
    · exact input_only_error _
    · exact input_only_ok _

theorem input_only_parse_matrix_mode (d : JVal) (s : Nat) :
    InputOnly (parse_matrix_mode d s) := by
  unfold parse_matrix_mode
  dsimp only
  split
  · refine input_only_bind (input_only_error _) fun _ => ?_
    refine input_only_bind (input_only_parse_matrix_rows _ _ _) fun _ => ?_
    split
    · refine input_only_bind
        (input_only_mapM (fun j => input_only_get_job_matrix j _ _) _) fun _ => ?_
      split
      · exact input_only_bind
          (input_only_mapM (fun sh => input_only_get_shipment_matrix sh _ _) _)
          fun _ => input_only_ok _
      · exact input_only_bind (input_only_ok _) fun _ => input_only_ok _
    · refine input_only_bind (input_only_ok _) fun _ => ?_
      split
      · exact input_only_bind
          (input_only_mapM (fun sh => input_only_get_shipment_matrix sh _ _) _)
          fun _ => input_only_ok _
      · exact input_only_bind (input_only_ok _) fun _ => input_only_ok _
  · refine input_only_bind (input_only_pure _) fun _ => ?_
    refine input_only_bind (input_only_parse_matrix_rows _ _ _) fun _ => ?_
    split
    · refine input_only_bind
        (input_only_mapM (fun j => input_only_get_job_matrix j _ _) _) fun _ => ?_
      split
      · exact input_only_bind
          (input_only_mapM (fun sh => input_only_get_shipment_matrix sh _ _) _)
          fun _ => input_only_ok _
      · exact input_only_bind (input_only_ok _) fun _ => input_only_ok _
    · refine input_only_bind (input_only_ok _) fun _ => ?_
      split
      · exact input_only_bind
          (input_only_mapM (fun sh => input_only_get_shipment_matrix sh _ _) _)
          fun _ => input_only_ok _
      · exact input_only_bind (input_only_ok _) fun _ => input_only_ok _
theorem input_only_parse_routing_mode (d : JVal) (s : Nat) :
    InputOnly (parse_routing_mode d s) := by
  unfold parse_routing_mode
  dsimp only
  split
  · refine input_only_bind
      (input_only_mapM (fun j => input_only_get_job_routing j _) _) fun _ => ?_
    split
    · exact input_only_bind
        (input_only_mapM (fun sh => input_only_get_shipment_routing sh _) _)
        fun _ => input_only_ok _
    · exact input_only_bind (input_only_ok _) fun _ => input_only_ok _
  · refine input_only_bind (input_only_ok _) fun _ => ?_
    split
    · exact input_only_bind
        (input_only_mapM (fun sh => input_only_get_shipment_routing sh _) _)
        fun _ => input_only_ok _
    · exact input_only_bind (input_only_ok _) fun _ => input_only_ok _

theorem input_only_parse (cl : CLArgs) : InputOnly (parse cl) := by
  unfold parse
  dsimp only
  split
  · refine input_only_bind (input_only_error _) fun _ => ?_
    split
    · refine input_only_bind (input_only_error _) fun _ => ?_
      refine input_only_bind (input_only_check_id _ _) fun _ => ?_
      refine input_only_bind (input_only_add_vehicles _ _ _) fun vp => ?_
      rcases vp with ⟨vehicles, common⟩
      dsimp only
      split
      · refine input_only_bind (input_only_map (input_only_parse_matrix_mode _ _)) fun mjs => ?_
        rcases mjs with ⟨m, jb, sh⟩
        exact input_only_bind (input_only_set_routing_wrapper _ _ _) fun _ => input_only_ok _
      · refine input_only_bind (input_only_map (input_only_parse_routing_mode _ _)) fun mjs => ?_
        rcases mjs with ⟨m, jb, sh⟩
        exact input_only_bind (input_only_set_routing_wrapper _ _ _) fun _ => input_only_ok _
    · refine input_only_bind (input_only_pure _) fun _ => ?_
      refine input_only_bind (input_only_check_id _ _) fun _ => ?_
      refine input_only_bind (input_only_add_vehicles _ _ _) fun vp => ?_
      rcases vp with ⟨vehicles, common⟩
      dsimp only
      split
      · refine input_only_bind (input_only_map (input_only_parse_matrix_mode _ _)) fun mjs => ?_
        rcases mjs with ⟨m, jb, sh⟩
        exact input_only_bind (input_only_set_routing_wrapper _ _ _) fun _ => input_only_ok _
      · refine input_only_bind (input_only_map (input_only_parse_routing_mode _ _)) fun mjs => ?_
        rcases mjs with ⟨m, jb, sh⟩
        exact input_only_bind (input_only_set_routing_wrapper _ _ _) fun _ => input_only_ok _
  · refine input_only_bind (input_only_pure _) fun _ => ?_
    split
    · refine input_only_bind (input_only_error _) fun _ => ?_
      refine input_only_bind (input_only_check_id _ _) fun _ => ?_
      refine input_only_bind (input_only_add_vehicles _ _ _) fun vp => ?_
      rcases vp with ⟨vehicles, common⟩
      dsimp only
      split
      · refine input_only_bind (input_only_map (input_only_parse_matrix_mode _ _)) fun mjs => ?_
        rcases mjs with ⟨m, jb, sh⟩
        exact input_only_bind (input_only_set_routing_wrapper _ _ _) fun _ => input_only_ok _
      · refine input_only_bind (input_only_map (input_only_parse_routing_mode _ _)) fun mjs => ?_
        rcases mjs with ⟨m, jb, sh⟩
        exact input_only_bind (input_only_set_routing_wrapper _ _ _) fun _ => input_only_ok _
    · refine input_only_bind (input_only_pure _) fun _ => ?_
      refine input_only_bind (input_only_check_id _ _) fun _ => ?_
      refine input_only_bind (input_only_add_vehicles _ _ _) fun vp => ?_
      rcases vp with ⟨vehicles, common⟩
      dsimp only
      split
      · refine input_only_bind (input_only_map (input_only_parse_matrix_mode _ _)) fun mjs => ?_
        rcases mjs with ⟨m, jb, sh⟩
        exact input_only_bind (input_only_set_routing_wrapper _ _ _) fun _ => input_only_ok _
      · refine input_only_bind (input_only_map (input_only_parse_routing_mode _ _)) fun mjs => ?_
        rcases mjs with ⟨m, jb, sh⟩
        exact input_only_bind (input_only_set_routing_wrapper _ _ _) fun _ => input_only_ok _

/-! ## Inversion lemmas for successful parses -/

theorem parse_ok_inv {cl : CLArgs} {inp : Input} (h : parse cl = .ok inp) :
    (has_jobs cl.input = true ∨ has_shipments cl.input = true) ∧
    (cl.input.hasMember ("vehicles") = true ∧
      (cl.input.get ("vehicles")).isArray = true ∧
      (cl.input.get ("vehicles")).size ≠ 0) ∧
    ∃ vehicles common_profile jobs shipments matrix? w,
      inp = ⟨infer_amount_size ((cl.input.get ("vehicles")).at 0), cl.geometry,
        vehicles, jobs, shipments, matrix?, some w⟩ ∧
      add_vehicles (infer_amount_size ((cl.input.get ("vehicles")).at 0))
        (cl.input.get ("vehicles")).elts "" = .ok (vehicles, common_profile) ∧
      set_routing_wrapper cl.router cl.servers common_profile = .ok w ∧
      ((cl.input.hasMember ("matrix") = true ∧ ∃ m,
          parse_matrix_mode cl.input
            (infer_amount_size ((cl.input.get ("vehicles")).at 0)) =
            .ok (m, jobs, shipments) ∧ matrix? = some m) ∨
       (cl.input.hasMember ("matrix") = false ∧
          parse_routing_mode cl.input
            (infer_amount_size ((cl.input.get ("vehicles")).at 0)) =
            .ok (jobs, shipments) ∧ matrix? = none)) := by
  unfold parse at h
  dsimp only at h
  split at h
  · rw [ebind_ok] at h
    obtain ⟨u, hu, -⟩ := h
    simp at hu
  · rename_i hjs
    rw [ebind_ok] at h
    obtain ⟨u, -, h⟩ := h
    split at h
    · rw [ebind_ok] at h
      obtain ⟨u', hu', -⟩ := h
      simp at hu'
    · rename_i hveh
      refine ⟨?_, ?_, ?_⟩
      · revert hjs
        cases has_jobs cl.input <;> cases has_shipments cl.input <;> simp
      · revert hveh
        cases hm : cl.input.hasMember ("vehicles") <;>
          cases ha : (cl.input.get ("vehicles")).isArray <;> simp [hm, ha]
      · rw [ebind_ok] at h
        obtain ⟨u', -, h⟩ := h
        rw [ebind_ok] at h
        obtain ⟨u'', -, h⟩ := h
        rw [ebind_ok] at h
        obtain ⟨vp, hvp, h⟩ := h
        obtain ⟨vehicles, common_profile⟩ := vp
        dsimp only at h
        split at h
        · rename_i hmem
          rw [ebind_ok] at h
          obtain ⟨mjs, hmode, h⟩ := h
          rw [emap_ok] at hmode
          obtain ⟨r, hr, hmjs⟩ := hmode
          obtain ⟨m, jb, sh⟩ := r
          subst hmjs
          rw [ebind_ok] at h
          obtain ⟨w, hw, h⟩ := h
          simp only [Except.ok.injEq] at h
          exact ⟨vehicles, common_profile, jb, sh, some m, w, h.symm, hvp, hw,
            .inl ⟨hmem, m, hr, rfl⟩⟩
        · rename_i hmem
          rw [ebind_ok] at h
          obtain ⟨mjs, hmode, h⟩ := h
          rw [emap_ok] at hmode
          obtain ⟨r, hr, hmjs⟩ := hmode
          obtain ⟨jb, sh⟩ := r
          subst hmjs
          rw [ebind_ok] at h
          obtain ⟨w, hw, h⟩ := h
          simp only [Except.ok.injEq] at h
          exact ⟨vehicles, common_profile, jb, sh, none, w, h.symm, hvp, hw,
            .inr ⟨by simpa using hmem, hr, rfl⟩⟩

theorem parse_matrix_mode_ok_inv {d : JVal} {s : Nat} {m : List (List Nat)}
    {jobs : List Job} {shipments : List (Job × Job)}
    (h : parse_matrix_mode d s = .ok (m, jobs, shipments)) :
    (d.get ("matrix")).isArray = true ∧
    parse_matrix_rows (d.get ("matrix")).size 0 (d.get ("matrix")).elts = .ok m ∧
    (has_jobs d = true →
      (d.get ("jobs")).elts.mapM
        (fun j => get_job_matrix j s (d.get ("matrix")).size) = .ok jobs) ∧
    (has_jobs d = false → jobs = []) ∧
    (has_shipments d = true →
      (d.get ("shipments")).elts.mapM
        (fun sh => get_shipment_matrix sh s (d.get ("matrix")).size) =
        .ok shipments) ∧
    (has_shipments d = false → shipments = []) := by
  unfold parse_matrix_mode at h
  dsimp only at h
  split at h
  · rw [ebind_ok] at h
    obtain ⟨u, hu, -⟩ := h
    simp at hu
  · rename_i harr
    rw [ebind_ok] at h
    obtain ⟨u, -, h⟩ := h
    rw [ebind_ok] at h
    obtain ⟨mm, hmm, h⟩ := h
    refine ⟨by simpa using harr, ?_⟩
    split at h
    · rename_i hjobs
      rw [ebind_ok] at h
      obtain ⟨jb, hjb, h⟩ := h
      split at h
      · rename_i hship
        rw [ebind_ok] at h
        obtain ⟨sh, hsh, h⟩ := h
        simp only [Except.ok.injEq, Prod.mk.injEq] at h
        obtain ⟨hm, hj, hs⟩ := h
        subst hm; subst hj; subst hs
        exact ⟨hmm, fun _ => hjb, by simp [hjobs], fun _ => hsh, by simp [hship]⟩
      · rename_i hship
        rw [ebind_ok] at h
        obtain ⟨sh, hsh, h⟩ := h
        simp only [Except.ok.injEq, Prod.mk.injEq] at h
        obtain ⟨hm, hj, hs⟩ := h
        subst hm; subst hj; subst hs
        simp only [Except.ok.injEq] at hsh
        exact ⟨hmm, fun _ => hjb, by simp [hjobs],
          fun hc => absurd hc (by simp [hship]), fun _ => hsh.symm⟩
    · rename_i hjobs
      rw [ebind_ok] at h
      obtain ⟨jb, hjb, h⟩ := h
      simp only [Except.ok.injEq] at hjb
      split at h
      · rename_i hship
        rw [ebind_ok] at h
        obtain ⟨sh, hsh, h⟩ := h
        simp only [Except.ok.injEq, Prod.mk.injEq] at h
        obtain ⟨hm, hj, hs⟩ := h
        subst hm; subst hj; subst hs
        exact ⟨hmm, fun hc => absurd hc (by simp [hjobs]), fun _ => hjb.symm,
          fun _ => hsh, by simp [hship]⟩
      · rename_i hship
        rw [ebind_ok] at h
        obtain ⟨sh, hsh, h⟩ := h
        simp only [Except.ok.injEq, Prod.mk.injEq] at h
        obtain ⟨hm, hj, hs⟩ := h
        subst hm; subst hj; subst hs
        simp only [Except.ok.injEq] at hsh
        exact ⟨hmm, fun hc => absurd hc (by simp [hjobs]), fun _ => hjb.symm,
          fun hc => absurd hc (by simp [hship]), fun _ => hsh.symm⟩

theorem parse_routing_mode_ok_inv {d : JVal} {s : Nat}
    {jobs : List Job} {shipments : List (Job × Job)}
    (h : parse_routing_mode d s = .ok (jobs, shipments)) :
    (has_jobs d = true →
      (d.get ("jobs")).elts.mapM (fun j => get_job_routing j s) = .ok jobs) ∧
    (has_jobs d = false → jobs = []) ∧
    (has_shipments d = true →
      (d.get ("shipments")).elts.mapM (fun sh => get_shipment_routing sh s) =
        .ok shipments) ∧
    (has_shipments d = false → shipments = []) := by
  unfold parse_routing_mode at h
  dsimp only at h
  split at h
  · rename_i hjobs
    rw [ebind_ok] at h
    obtain ⟨jb, hjb, h⟩ := h
    split at h
    · rename_i hship
      rw [ebind_ok] at h
      obtain ⟨sh, hsh, h⟩ := h
      simp only [Except.ok.injEq, Prod.mk.injEq] at h
      obtain ⟨hj, hs⟩ := h
      subst hj; subst hs
      exact ⟨fun _ => hjb, by simp [hjobs], fun _ => hsh, by simp [hship]⟩
    · rename_i hship
      rw [ebind_ok] at h
      obtain ⟨sh, hsh, h⟩ := h
      simp only [Except.ok.injEq, Prod.mk.injEq] at h
      obtain ⟨hj, hs⟩ := h
      subst hj; subst hs
      simp only [Except.ok.injEq] at hsh
      exact ⟨fun _ => hjb, by simp [hjobs],
        fun hc => absurd hc (by simp [hship]), fun _ => hsh.symm⟩
  · rename_i hjobs
    rw [ebind_ok] at h
    obtain ⟨jb, hjb, h⟩ := h
    simp only [Except.ok.injEq] at hjb
    split at h
    · rename_i hship
      rw [ebind_ok] at h
      obtain ⟨sh, hsh, h⟩ := h
      simp only [Except.ok.injEq, Prod.mk.injEq] at h
      obtain ⟨hj, hs⟩ := h
      subst hj; subst hs
      exact ⟨fun hc => absurd hc (by simp [hjobs]), fun _ => hjb.symm,
        fun _ => hsh, by simp [hship]⟩
    · rename_i hship
      rw [ebind_ok] at h
      obtain ⟨sh, hsh, h⟩ := h
      simp only [Except.ok.injEq, Prod.mk.injEq] at h
      obtain ⟨hj, hs⟩ := h
      subst hj; subst hs
      simp only [Except.ok.injEq] at hsh
      exact ⟨fun hc => absurd hc (by simp [hjobs]), fun _ => hjb.symm,
        fun hc => absurd hc (by simp [hship]), fun _ => hsh.symm⟩

/-! ## Amount lemmas -/

theorem get_amount_elts_length {k : String} :
    ∀ {l : List JVal} {a : List Nat}, get_amount_elts k l = .ok a →
      a.length = l.length
  | [], a => by
    intro h
    simp only [get_amount_elts, Except.ok.injEq] at h
    subst h
    rfl
  | e :: rest, a => by
    intro h
    unfold get_amount_elts at h
    split at h
    · simp at h
    · rw [ebind_ok] at h
      obtain ⟨tail, htail, h⟩ := h
      simp only [Except.ok.injEq] at h
      subst h
      simp [get_amount_elts_length htail]

theorem get_amount_ok_length {o : JVal} {k : String} {s : Nat} {a : List Nat}
    (h : get_amount o k s = .ok a) : a.length = s := by
  unfold get_amount at h
  split at h
  · split at h
    · simp at h
    · split at h
      · simp at h
      · rename_i hsize
        rw [get_amount_elts_length h]
        simpa [JVal.size] using not_ne_iff.1 hsize
  · simp only [Except.ok.injEq] at h
    subst h
    simp

theorem get_amount_absent {o : JVal} {k : String} {s : Nat}
    (h : o.hasMember k = false) :
    get_amount o k s = .ok (List.replicate s 0) := by
  unfold get_amount
  rw [h]
  simp

theorem get_amount_wrong_length {o : JVal} {k : String} {s : Nat}
    {xs : List JVal} (hfind : o.find k = some (.arr xs))
    (hlen : xs.length ≠ s) :
    get_amount o k s = .error ⟨.INPUT, "Inconsistent " ++ k ++ " length: " ++
      toString xs.length ++ " and " ++ toString s ++ "."⟩ := by
  unfold get_amount JVal.hasMember JVal.get
  rw [hfind]
  simp [JVal.isArray, JVal.size, JVal.elts, hlen]

theorem shipment_delivery_slot_length (t : JOB_TYPE) (a : List Nat) :
    (shipment_delivery_slot t a).length = a.length := by
  unfold shipment_delivery_slot
  split <;> simp

theorem shipment_pickup_slot_length (t : JOB_TYPE) (a : List Nat) :
    (shipment_pickup_slot t a).length = a.length := by
  unfold shipment_pickup_slot
  split <;> simp

/-! ## Builder inversions -/

theorem get_vehicle_ok_inv {jv : JVal} {s : Nat} {v : Vehicle}
    (h : get_vehicle jv s = .ok v) :
    check_id jv ("vehicle") = .ok () ∧
    get_vehicle_start jv ((jv.get ("id")).getUint64) = .ok v.start ∧
    get_amount jv ("capacity") s = .ok v.capacity ∧
    v.id = (jv.get ("id")).getUint64 := by
  unfold get_vehicle at h
  rw [ebind_ok] at h
  obtain ⟨u, hcid, h⟩ := h
  rw [ebind_ok] at h
  obtain ⟨st, hst, h⟩ := h
  rw [ebind_ok] at h
  obtain ⟨en, hen, h⟩ := h
  rw [ebind_ok] at h
  obtain ⟨cap, hcap, h⟩ := h
  rw [ebind_ok] at h
  obtain ⟨sk, hsk, h⟩ := h
  rw [ebind_ok] at h
  obtain ⟨tw, htw, h⟩ := h
  rw [ebind_ok] at h
  obtain ⟨brk, hbrk, h⟩ := h
  rw [ebind_ok] at h
  obtain ⟨ds, hds, h⟩ := h
  rw [ebind_ok] at h
  obtain ⟨stp, hstp, h⟩ := h
  simp only [Except.ok.injEq] at h
  subst h
  exact ⟨hcid, hst, hcap, rfl⟩

theorem add_vehicles_ok_mem {s : Nat} :
    ∀ {l : List JVal} {c : String} {vl : List Vehicle} {p : String},
      add_vehicles s l c = .ok (vl, p) →
      ∀ v ∈ vl, ∃ jv ∈ l, get_vehicle jv s = .ok v
  | [], c, vl, p => by
    intro h v hv
    simp only [add_vehicles, Except.ok.injEq, Prod.mk.injEq] at h
    obtain ⟨h, -⟩ := h
    subst h
    simp at hv
  | jv :: rest, c, vl, p => by
    intro h v hv
    unfold add_vehicles at h
    rw [ebind_ok] at h
    obtain ⟨v0, hv0, h⟩ := h
    rw [ebind_ok] at h
    obtain ⟨cur, hcur, h⟩ := h
    rw [ebind_ok] at h
    obtain ⟨vp, hvp, h⟩ := h
    obtain ⟨vl', p'⟩ := vp
    simp only [Except.ok.injEq, Prod.mk.injEq] at h
    obtain ⟨hvl, -⟩ := h
    subst hvl
    rcases List.mem_cons.1 hv with rfl | hv
    · exact ⟨jv, List.mem_cons_self jv rest, hv0⟩
    · obtain ⟨jv', hjv', hgv⟩ := add_vehicles_ok_mem hvp v hv
      exact ⟨jv', List.mem_cons_of_mem jv hjv', hgv⟩

theorem get_job_matrix_ok_inv {j : JVal} {s m : Nat} {job : Job}
    (h : get_job_matrix j s m = .ok job) :
    check_id j ("job") = .ok () ∧
    check_location_index j ("job") m = .ok () ∧
    get_job_delivery j s = .ok job.delivery ∧
    get_amount j ("pickup") s = .ok job.pickup ∧
    get_job_time_windows j = .ok job.tws ∧
    job.type = .SINGLE ∧
    job.id = (j.get ("id")).getUint64 ∧
    (job.location = .index ((j.get ("location_index")).getUint) ∨
      ∃ c, job.location = .both ((j.get ("location_index")).getUint) c) := by
  unfold get_job_matrix at h
  rw [ebind_ok] at h
  obtain ⟨u1, hc1, h⟩ := h
  rw [ebind_ok] at h
  obtain ⟨u2, hc2, h⟩ := h
  dsimp only at h
  have tail : ∀ loc : Location,
      (do
        let service ← get_service j
        let delivery ← get_job_delivery j s
        let pickup ← get_amount j ("pickup") s
        let skills ← get_skills j
        let priority ← get_priority j
        let tws ← get_job_time_windows j
        let descr ← get_string j ("description")
        (Except.ok ⟨(j.get ("id")).getUint64, JOB_TYPE.SINGLE, loc, service,
          delivery, pickup, skills, priority, tws, descr⟩ :
          Except Exception Job)) = .ok job →
      get_job_delivery j s = .ok job.delivery ∧
      get_amount j ("pickup") s = .ok job.pickup ∧
      get_job_time_windows j = .ok job.tws ∧
      job.type = .SINGLE ∧ job.id = (j.get ("id")).getUint64 ∧
      job.location = loc := by
    intro loc htl
    rw [ebind_ok] at htl
    obtain ⟨sv, hsv, htl⟩ := htl
    rw [ebind_ok] at htl
    obtain ⟨dl, hdl, htl⟩ := htl
    rw [ebind_ok] at htl
    obtain ⟨pk, hpk, htl⟩ := htl
    rw [ebind_ok] at htl
    obtain ⟨sk, hsk, htl⟩ := htl
    rw [ebind_ok] at htl
    obtain ⟨pr, hpr, htl⟩ := htl
    rw [ebind_ok] at htl
    obtain ⟨tws, htws, htl⟩ := htl
    rw [ebind_ok] at htl
    obtain ⟨ds, hds, htl⟩ := htl
    simp only [Except.ok.injEq] at htl
    subst htl
    exact ⟨hdl, hpk, htws, rfl, rfl, rfl⟩
  have hun : u2 = () := rfl
  subst hun
  split at h
  · rw [ebind_ok] at h
    obtain ⟨loc, hloc, h⟩ := h
    rw [emap_ok] at hloc
    obtain ⟨c, hc, hl⟩ := hloc
    obtain ⟨hdl, hpk, htws, hty, hid, hl'⟩ := tail loc h
    exact ⟨hc1, hc2, hdl, hpk, htws, hty, hid, .inr ⟨c, by rw [hl', ← hl]⟩⟩
  · rw [ebind_ok] at h
    obtain ⟨loc, hloc, h⟩ := h
    simp only [Except.ok.injEq] at hloc
    obtain ⟨hdl, hpk, htws, hty, hid, hl'⟩ := tail loc h
    exact ⟨hc1, hc2, hdl, hpk, htws, hty, hid, .inl (by rw [hl', ← hloc])⟩

theorem get_job_routing_ok_inv {j : JVal} {s : Nat} {job : Job}
    (h : get_job_routing j s = .ok job) :
    check_id j ("job") = .ok () ∧
    check_location j ("job") = .ok () ∧
    get_job_delivery j s = .ok job.delivery ∧
    get_amount j ("pickup") s = .ok job.pickup ∧
    get_job_time_windows j = .ok job.tws ∧
    job.type = .SINGLE ∧
    job.id = (j.get ("id")).getUint64 ∧
    ∃ c, parse_coordinates j ("location") = .ok c ∧ job.location = .coords c := by
  unfold get_job_routing at h
  rw [ebind_ok] at h
  obtain ⟨u1, hc1, h⟩ := h
  rw [ebind_ok] at h
  obtain ⟨u2, hc2, h⟩ := h
  rw [ebind_ok] at h
  obtain ⟨c, hc, h⟩ := h
  rw [ebind_ok] at h
  obtain ⟨sv, hsv, h⟩ := h
  rw [ebind_ok] at h
  obtain ⟨dl, hdl, h⟩ := h
  rw [ebind_ok] at h
  obtain ⟨pk, hpk, h⟩ := h
  rw [ebind_ok] at h
  obtain ⟨sk, hsk, h⟩ := h
  rw [ebind_ok] at h
  obtain ⟨pr, hpr, h⟩ := h
  rw [ebind_ok] at h
  obtain ⟨tws, htws, h⟩ := h
  rw [ebind_ok] at h
  obtain ⟨ds, hds, h⟩ := h
  simp only [Except.ok.injEq] at h
  subst h
  exact ⟨hc1, hc2, hdl, hpk, htws, rfl, rfl, c, hc, rfl⟩

theorem get_shipment_side_matrix_ok_inv {j : JVal} {t : String}
    {ty : JOB_TYPE} {a : List Nat} {sk : Finset ℕ} {p m : Nat} {job : Job}
    (h : get_shipment_side_matrix j t ty a sk p m = .ok job) :
    check_id j t = .ok () ∧
    check_location_index j t m = .ok () ∧
    job.delivery = shipment_delivery_slot ty a ∧
    job.pickup = shipment_pickup_slot ty a ∧
    job.type = ty ∧
    job.id = (j.get ("id")).getUint64 ∧
    (job.location = .index ((j.get ("location_index")).getUint) ∨
      ∃ c, job.location = .both ((j.get ("location_index")).getUint) c) := by
  unfold get_shipment_side_matrix at h
  rw [ebind_ok] at h
  obtain ⟨u1, hc1, h⟩ := h
  rw [ebind_ok] at h
  obtain ⟨u2, hc2, h⟩ := h
  dsimp only at h
  have tail : ∀ loc : Location,
      (do
        let service ← get_service j
        let tws ← get_job_time_windows j
        let descr ← get_string j ("description")
        (Except.ok ⟨(j.get ("id")).getUint64, ty, loc, service,
          shipment_delivery_slot ty a, shipment_pickup_slot ty a,
          sk, p, tws, descr⟩ : Except Exception Job)) = .ok job →
      job.delivery = shipment_delivery_slot ty a ∧
      job.pickup = shipment_pickup_slot ty a ∧
      job.type = ty ∧ job.id = (j.get ("id")).getUint64 ∧
      job.location = loc := by
    intro loc htl
    rw [ebind_ok] at htl
    obtain ⟨sv, hsv, htl⟩ := htl
    rw [ebind_ok] at htl
    obtain ⟨tws, htws, htl⟩ := htl
    rw [ebind_ok] at htl
    obtain ⟨ds, hds, htl⟩ := htl
    simp only [Except.ok.injEq] at htl
    subst htl
    exact ⟨rfl, rfl, rfl, rfl, rfl⟩
  have hun : u2 = () := rfl
  subst hun
  split at h
  · rw [ebind_ok] at h
    obtain ⟨loc, hloc, h⟩ := h
    rw [emap_ok] at hloc
    obtain ⟨c, hc, hl⟩ := hloc
    obtain ⟨hdl, hpk, hty, hid, hl'⟩ := tail loc h
    exact ⟨hc1, hc2, hdl, hpk, hty, hid, .inr ⟨c, by rw [hl', ← hl]⟩⟩
  · rw [ebind_ok] at h
    obtain ⟨loc, hloc, h⟩ := h
    simp only [Except.ok.injEq] at hloc
    obtain ⟨hdl, hpk, hty, hid, hl'⟩ := tail loc h
    exact ⟨hc1, hc2, hdl, hpk, hty, hid, .inl (by rw [hl', ← hloc])⟩

theorem get_shipment_side_routing_ok_inv {j : JVal} {t : String}
    {ty : JOB_TYPE} {a : List Nat} {sk : Finset ℕ} {p : Nat} {job : Job}
    (h : get_shipment_side_routing j t ty a sk p = .ok job) :
    check_id j t = .ok () ∧
    check_location j t = .ok () ∧
    job.delivery = shipment_delivery_slot ty a ∧
    job.pickup = shipment_pickup_slot ty a ∧
    job.type = ty ∧
    job.id = (j.get ("id")).getUint64 ∧
    ∃ c, parse_coordinates j ("location") = .ok c ∧ job.location = .coords c := by
  unfold get_shipment_side_routing at h
  rw [ebind_ok] at h
  obtain ⟨u1, hc1, h⟩ := h
  rw [ebind_ok] at h
  obtain ⟨u2, hc2, h⟩ := h
  rw [ebind_ok] at h
  obtain ⟨c, hc, h⟩ := h
  rw [ebind_ok] at h
  obtain ⟨sv, hsv, h⟩ := h
  rw [ebind_ok] at h
  obtain ⟨tws, htws, h⟩ := h
  rw [ebind_ok] at h
  obtain ⟨ds, hds, h⟩ := h
  simp only [Except.ok.injEq] at h
  subst h
  exact ⟨hc1, hc2, rfl, rfl, rfl, rfl, c, hc, rfl⟩

theorem get_shipment_matrix_ok_inv {sh : JVal} {s m : Nat} {pd : Job × Job}
    (h : get_shipment_matrix sh s m = .ok pd) :
    check_shipment sh = .ok () ∧
    ∃ a sk pr, get_amount sh ("amount") s = .ok a ∧
      get_skills sh = .ok sk ∧ get_priority sh = .ok pr ∧
      get_shipment_side_matrix (sh.get ("pickup")) ("pickup") .PICKUP
        a sk pr m = .ok pd.1 ∧
      get_shipment_side_matrix (sh.get ("delivery")) ("delivery") .DELIVERY
        a sk pr m = .ok pd.2 := by
  unfold get_shipment_matrix at h
  rw [ebind_ok] at h
  obtain ⟨u1, hc1, h⟩ := h
  rw [ebind_ok] at h
  obtain ⟨a, ha, h⟩ := h
  rw [ebind_ok] at h
  obtain ⟨sk, hsk, h⟩ := h
  rw [ebind_ok] at h
  obtain ⟨pr, hpr, h⟩ := h
  rw [ebind_ok] at h
  obtain ⟨p, hp, h⟩ := h
  rw [ebind_ok] at h
  obtain ⟨d, hd, h⟩ := h
  simp only [Except.ok.injEq] at h
  subst h
  exact ⟨hc1, a, sk, pr, ha, hsk, hpr, hp, hd⟩

theorem get_shipment_routing_ok_inv {sh : JVal} {s : Nat} {pd : Job × Job}
    (h : get_shipment_routing sh s = .ok pd) :
    check_shipment sh = .ok () ∧
    ∃ a sk pr, get_amount sh ("amount") s = .ok a ∧
      get_skills sh = .ok sk ∧ get_priority sh = .ok pr ∧
      get_shipment_side_routing (sh.get ("pickup")) ("pickup") .PICKUP
        a sk pr = .ok pd.1 ∧
      get_shipment_side_routing (sh.get ("delivery")) ("delivery") .DELIVERY
        a sk pr = .ok pd.2 := by
  unfold get_shipment_routing at h
  rw [ebind_ok] at h
  obtain ⟨u1, hc1, h⟩ := h
  rw [ebind_ok] at h
  obtain ⟨a, ha, h⟩ := h
  rw [ebind_ok] at h
  obtain ⟨sk, hsk, h⟩ := h
  rw [ebind_ok] at h
  obtain ⟨pr, hpr, h⟩ := h
  rw [ebind_ok] at h
  obtain ⟨p, hp, h⟩ := h
  rw [ebind_ok] at h
  obtain ⟨d, hd, h⟩ := h
  simp only [Except.ok.injEq] at h
  subst h
  exact ⟨hc1, a, sk, pr, ha, hsk, hpr, hp, hd⟩

theorem get_job_delivery_ok_length {j : JVal} {s : Nat} {dl : List Nat}
    (h : get_job_delivery j s = .ok dl) : dl.length = s := by
  unfold get_job_delivery at h
  split at h <;> exact get_amount_ok_length h

/-! ## Claim theorems -/

/-- C1: for every parsed document, the capacity dimensionality equals the
first vehicle's capacity array length when present as a non-empty array
and 0 otherwise (`infer_amount_size`); every amount vector stored in the
aggregate (vehicle capacities, job delivery/pickup amounts, both sides of
every shipment) has exactly that length; an absent amount field yields the
zero vector of that length, and a present array of any other length fails
with an INPUT error citing both the found and the expected lengths. -/
theorem C1_amount_dimensionality (cl : CLArgs) (inp : Input)
    (h : parse cl = .ok inp) :
    inp.amount_size = infer_amount_size ((cl.input.get ("vehicles")).at 0) ∧
    (∀ v ∈ inp.vehicles, v.capacity.length = inp.amount_size) ∧
    (∀ j ∈ inp.jobs, j.delivery.length = inp.amount_size ∧
      j.pickup.length = inp.amount_size) ∧
    (∀ pd ∈ inp.shipments,
      pd.1.delivery.length = inp.amount_size ∧
      pd.1.pickup.length = inp.amount_size ∧
      pd.2.delivery.length = inp.amount_size ∧
      pd.2.pickup.length = inp.amount_size) ∧
    (∀ (o : JVal) (key : String) (size : Nat),
      (o.hasMember key = false →
        get_amount o key size = .ok (List.replicate size 0)) ∧
      (∀ xs, o.find key = some (.arr xs) → xs.length ≠ size →
        get_amount o key size = .error ⟨.INPUT, "Inconsistent " ++ key ++
          " length: " ++ toString xs.length ++ " and " ++ toString size ++
          "."⟩) ∧
      (∀ a, get_amount o key size = .ok a → a.length = size)) := by
  obtain ⟨-, -, vehicles, common_profile, jobs, shipments, matrix?, w,
    hinp, hvp, hw, hmode⟩ := parse_ok_inv h
  subst hinp
  dsimp only
  refine ⟨rfl, ?_, ?_, ?_, ?_⟩
  · intro v hv
    obtain ⟨jv, -, hgv⟩ := add_vehicles_ok_mem hvp v hv
    obtain ⟨-, -, hcap, -⟩ := get_vehicle_ok_inv hgv
    exact get_amount_ok_length hcap
  · intro j hj
    rcases hmode with ⟨-, m, hmm, -⟩ | ⟨-, hrm, -⟩
    · obtain ⟨-, -, hjobs, hjempty, -, -⟩ := parse_matrix_mode_ok_inv hmm
      cases hhj : has_jobs cl.input
      · rw [hjempty hhj] at hj
        simp at hj
      · obtain ⟨jv, -, hgj⟩ := mapM_ok_mem (hjobs hhj) j hj
        obtain ⟨-, -, hdl, hpk, -, -, -, -⟩ := get_job_matrix_ok_inv hgj
        exact ⟨get_job_delivery_ok_length hdl, get_amount_ok_length hpk⟩
    · obtain ⟨hjobs, hjempty, -, -⟩ := parse_routing_mode_ok_inv hrm
      cases hhj : has_jobs cl.input
      · rw [hjempty hhj] at hj
        simp at hj
      · obtain ⟨jv, -, hgj⟩ := mapM_ok_mem (hjobs hhj) j hj
        obtain ⟨-, -, hdl, hpk, -, -, -, -⟩ := get_job_routing_ok_inv hgj
        exact ⟨get_job_delivery_ok_length hdl, get_amount_ok_length hpk⟩
  · intro pd hpd
    rcases hmode with ⟨-, m, hmm, -⟩ | ⟨-, hrm, -⟩
    · obtain ⟨-, -, -, -, hships, hsempty⟩ := parse_matrix_mode_ok_inv hmm
      cases hhs : has_shipments cl.input
      · rw [hsempty hhs] at hpd
        simp at hpd
      · obtain ⟨sv, -, hgs⟩ := mapM_ok_mem (hships hhs) pd hpd
        obtain ⟨-, a, sk, pr, ha, -, -, hp, hd⟩ := get_shipment_matrix_ok_inv hgs
        have hlen := get_amount_ok_length ha
        obtain ⟨-, -, hd1, hp1, -, -, -⟩ := get_shipment_side_matrix_ok_inv hp
        obtain ⟨-, -, hd2, hp2, -, -, -⟩ := get_shipment_side_matrix_ok_inv hd
        rw [hd1, hp1, hd2, hp2, shipment_delivery_slot_length,
          shipment_pickup_slot_length, shipment_delivery_slot_length,
          shipment_pickup_slot_length]
        exact ⟨hlen, hlen, hlen, hlen⟩
    · obtain ⟨-, -, hships, hsempty⟩ := parse_routing_mode_ok_inv hrm
      cases hhs : has_shipments cl.input
      · rw [hsempty hhs] at hpd
        simp at hpd
      · obtain ⟨sv, -, hgs⟩ := mapM_ok_mem (hships hhs) pd hpd
        obtain ⟨-, a, sk, pr, ha, -, -, hp, hd⟩ := get_shipment_routing_ok_inv hgs
        have hlen := get_amount_ok_length ha
        obtain ⟨-, -, hd1, hp1, -, -, -⟩ := get_shipment_side_routing_ok_inv hp
        obtain ⟨-, -, hd2, hp2, -, -, -⟩ := get_shipment_side_routing_ok_inv hd
        rw [hd1, hp1, hd2, hp2, shipment_delivery_slot_length,
          shipment_pickup_slot_length, shipment_delivery_slot_length,
          shipment_pickup_slot_length]
        exact ⟨hlen, hlen, hlen, hlen⟩
  · intro o key size
    exact ⟨fun habs => get_amount_absent habs,
      fun xs hfind hlen => get_amount_wrong_length hfind hlen,
      fun a ha => get_amount_ok_length ha⟩

/-- Witness for C1 at the spec's first scenario. -/
theorem C1_amount_dimensionality_witness :
    parse args_scenario1 = .ok input_scenario1 ∧
    (input_scenario1.amount_size =
        infer_amount_size ((args_scenario1.input.get ("vehicles")).at 0) ∧
      (∀ v ∈ input_scenario1.vehicles,
        v.capacity.length = input_scenario1.amount_size) ∧
      (∀ j ∈ input_scenario1.jobs,
        j.delivery.length = input_scenario1.amount_size ∧
        j.pickup.length = input_scenario1.amount_size) ∧
      (∀ pd ∈ input_scenario1.shipments,
        pd.1.delivery.length = input_scenario1.amount_size ∧
        pd.1.pickup.length = input_scenario1.amount_size ∧
        pd.2.delivery.length = input_scenario1.amount_size ∧
        pd.2.pickup.length = input_scenario1.amount_size) ∧
      (∀ (o : JVal) (key : String) (size : Nat),
        (o.hasMember key = false →
          get_amount o key size = .ok (List.replicate size 0)) ∧
        (∀ xs, o.find key = some (.arr xs) → xs.length ≠ size →
          get_amount o key size = .error ⟨.INPUT, "Inconsistent " ++ key ++
            " length: " ++ toString xs.length ++ " and " ++ toString size ++
            "."⟩) ∧
        (∀ a, get_amount o key size = .ok a → a.length = size))) :=
  ⟨by decide, C1_amount_dimensionality args_scenario1 input_scenario1 (by decide)⟩

/-- C2: in matrix mode the location-index check distinguishes three cases:
a missing or non-unsigned-integer `location_index` fails with an INPUT
error naming the entity type and id; a well-typed index at least the
matrix size fails with a distinct INPUT error saying the index exceeds the
matrix size; an index strictly below the matrix size passes.  Every job
and shipment side built in matrix mode has passed the check. -/
theorem C2_location_index_check (v : JVal) (type : String) (m : Nat) :
    (¬(v.hasMember ("location_index") = true ∧
        (v.get ("location_index")).isUint = true) →
      check_location_index v type m = .error ⟨.INPUT,
        "Invalid location_index for " ++ type ++ " " ++
        toString (v.get ("id")).getUint64 ++ "."⟩) ∧
    (v.hasMember ("location_index") = true →
      (v.get ("location_index")).isUint = true →
      m ≤ (v.get ("location_index")).getUint →
      check_location_index v type m = .error ⟨.INPUT,
        "location_index exceeding matrix size for " ++ type ++ " " ++
        toString (v.get ("id")).getUint64 ++ "."⟩) ∧
    (v.hasMember ("location_index") = true →
      (v.get ("location_index")).isUint = true →
      (v.get ("location_index")).getUint < m →
      check_location_index v type m = .ok ()) ∧
    (∀ (j : JVal) (s : Nat) (job : Job), get_job_matrix j s m = .ok job →
      check_location_index j ("job") m = .ok ()) ∧
    (∀ (j : JVal) (t : String) (ty : JOB_TYPE) (a : List Nat) (sk : Finset ℕ)
      (p : Nat) (job : Job),
      get_shipment_side_matrix j t ty a sk p m = .ok job →
      check_location_index j t m = .ok ()) := by
  refine ⟨?_, ?_, ?_, ?_, ?_⟩
  · intro hn
    unfold check_location_index
    rw [if_pos]
    cases h1 : v.hasMember ("location_index") <;>
      cases h2 : (v.get ("location_index")).isUint <;> simp_all
  · intro h1 h2 h3
    unfold check_location_index
    rw [if_neg (by simp [h1, h2]), if_pos (by simpa using h3)]
  · intro h1 h2 h3
    unfold check_location_index
    rw [if_neg (by simp [h1, h2]), if_neg (by simpa using Nat.not_le.2 h3)]
  · intro j s job hj
    exact (get_job_matrix_ok_inv hj).2.1
  · intro j t ty a sk p job hj
    exact (get_shipment_side_matrix_ok_inv hj).2.1

/-- Witness for C2: a job object with id 7 and `location_index` 1 passes
against a 2×2 matrix, exceeds a 1×1 matrix, and an object without the
index field fails as invalid. -/
theorem C2_location_index_check_witness :
    check_location_index
      (.obj [(("id"), .num 7), (("location_index"), .num 1)]) ("job") 2 =
      .ok () ∧
    check_location_index
      (.obj [(("id"), .num 7), (("location_index"), .num 1)]) ("job") 1 =
      .error ⟨.INPUT, "location_index exceeding matrix size for " ++ ("job") ++
        " " ++ toString ((JVal.obj [(("id"), .num 7),
          (("location_index"), .num 1)]).get ("id")).getUint64 ++ "."⟩ ∧
    check_location_index (.obj [(("id"), .num 7)]) ("job") 1 =
      .error ⟨.INPUT, "Invalid location_index for " ++ ("job") ++ " " ++
        toString ((JVal.obj [(("id"), .num 7)]).get ("id")).getUint64 ++
        "."⟩ :=
  ⟨(C2_location_index_check
      (.obj [(("id"), .num 7), (("location_index"), .num 1)]) ("job") 2).2.2.1
      (by decide) (by decide) (by decide),
   (C2_location_index_check
      (.obj [(("id"), .num 7), (("location_index"), .num 1)]) ("job") 1).2.1
      (by decide) (by decide) (by decide),
   (C2_location_index_check (.obj [(("id"), .num 7)]) ("job") 1).1
      (by decide)⟩

theorem ebind_error {α β : Type} (e : Exception) (f : α → Except Exception β) :
    ((Except.error e : Except Exception α) >>= f) = .error e := rfl

theorem eok_bind {α β : Type} (a : α) (f : α → Except Exception β) :
    ((Except.ok a : Except Exception α) >>= f) = f a := rfl

/-- C7: a document with neither a non-empty `jobs` array nor a non-empty
`shipments` array fails with exactly "Invalid jobs or shipments."
(regardless of its `vehicles` field, so this check comes first); a
document passing that check whose `vehicles` is absent, not an array or
empty fails with exactly "Invalid vehicles.". -/
theorem C7_top_level_checks (cl : CLArgs) :
    (has_jobs cl.input = false → has_shipments cl.input = false →
      parse cl = .error ⟨.INPUT, "Invalid jobs or shipments."⟩) ∧
    ((has_jobs cl.input = true ∨ has_shipments cl.input = true) →
      ¬(cl.input.hasMember ("vehicles") = true ∧
        (cl.input.get ("vehicles")).isArray = true ∧
        (cl.input.get ("vehicles")).size ≠ 0) →
      parse cl = .error ⟨.INPUT, "Invalid vehicles."⟩) := by
  constructor
  · intro hj hs
    unfold parse
    dsimp only
    rw [if_pos (by simp [hj, hs]), ethrow, ebind_error]
  · intro hjs hv
    unfold parse
    dsimp only
    rw [if_neg (by rcases hjs with h | h <;> simp [h]), epure, eok_bind,
      if_pos, ethrow, ebind_error]
    cases h1 : cl.input.hasMember ("vehicles") <;>
      cases h2 : (cl.input.get ("vehicles")).isArray <;>
      cases h3 : (cl.input.get ("vehicles")).size == 0 <;>
      simp_all

/-- Witness for C7: the two failing documents of the spec's scenarios. -/
theorem C7_top_level_checks_witness :
    parse ⟨.obj [(("jobs"), .arr []), (("shipments"), .arr []),
        (("vehicles"), .arr [.obj [(("id"), .num 1)]])], .OSRM, [], false⟩ =
      .error ⟨.INPUT, "Invalid jobs or shipments."⟩ ∧
    parse ⟨.obj [(("jobs"), .arr [.obj [(("id"), .num 1)]])], .OSRM, [],
        false⟩ =
      .error ⟨.INPUT, "Invalid vehicles."⟩ :=
  ⟨(C7_top_level_checks ⟨.obj [(("jobs"), .arr []), (("shipments"), .arr []),
      (("vehicles"), .arr [.obj [(("id"), .num 1)]])], .OSRM, [], false⟩).1
      (by decide) (by decide),
   (C7_top_level_checks ⟨.obj [(("jobs"), .arr [.obj [(("id"), .num 1)]])],
      .OSRM, [], false⟩).2 (.inl (by decide)) (by decide)⟩

/-- C9: parse enforces no uniqueness of ids — this document carries two
jobs with id 1 and two vehicles with id 1, parses successfully, and both
entities are stored keeping the duplicated ids. -/
theorem C9_duplicate_ids :
    parse args_dup_ids = .ok input_dup_ids ∧
    input_dup_ids.jobs.map Job.id = [1, 1] ∧
    input_dup_ids.vehicles.map Vehicle.id = [1, 1] := by
  refine ⟨by decide, by decide, by decide⟩

theorem check_location_index_zero (v : JVal) (t : String) :
    check_location_index v t 0 ≠ .ok () := by
  unfold check_location_index
  split
  · simp
  · rw [if_pos (Nat.zero_le _)]
    simp

theorem get_job_matrix_zero_no_ok (j : JVal) (s : Nat) (job : Job) :
    get_job_matrix j s 0 ≠ .ok job := by
  intro h
  exact check_location_index_zero _ _ (get_job_matrix_ok_inv h).2.1

theorem get_shipment_matrix_zero_no_ok (sh : JVal) (s : Nat) (pd : Job × Job) :
    get_shipment_matrix sh s 0 ≠ .ok pd := by
  intro h
  obtain ⟨-, a, sk, pr, -, -, -, hp, -⟩ := get_shipment_matrix_ok_inv h
  exact check_location_index_zero _ _ (get_shipment_side_matrix_ok_inv hp).2.1

theorem parse_matrix_mode_empty_no_ok {d : JVal} {s : Nat}
    {r : List (List Nat) × List Job × List (Job × Job)}
    (hm : d.get ("matrix") = .arr [])
    (hjs : has_jobs d = true ∨ has_shipments d = true) :
    parse_matrix_mode d s ≠ .ok r := by
  intro h
  obtain ⟨m, jobs, ships⟩ := r
  obtain ⟨-, -, hjobs, -, hships, -⟩ := parse_matrix_mode_ok_inv h
  have hsize : (d.get ("matrix")).size = 0 := by rw [hm]; rfl
  rcases hjs with hj | hs
  · have hne : (d.get ("jobs")).elts.length ≠ 0 := by
      revert hj
      unfold has_jobs JVal.size
      cases (d.get ("jobs")).elts.length == 0 <;> simp_all
    have := hjobs hj
    rw [hsize] at this
    cases he : (d.get ("jobs")).elts with
    | nil => exact hne (by rw [he]; rfl)
    | cons x rest =>
      rw [he] at this
      obtain ⟨y, ys, hy, -, -⟩ := mapM_cons_ok this
      exact get_job_matrix_zero_no_ok x s y hy
  · have hne : (d.get ("shipments")).elts.length ≠ 0 := by
      revert hs
      unfold has_shipments JVal.size
      cases (d.get ("shipments")).elts.length == 0 <;> simp_all
    have := hships hs
    rw [hsize] at this
    cases he : (d.get ("shipments")).elts with
    | nil => exact hne (by rw [he]; rfl)
    | cons x rest =>
      rw [he] at this
      obtain ⟨y, ys, hy, -, -⟩ := mapM_cons_ok this
      exact get_shipment_matrix_zero_no_ok x s y hy

/-- C10: an empty top-level matrix passes the square-matrix validation
vacuously, yet no document carrying `matrix: []` can parse successfully:
at least one job or shipment must exist and its location-index check
against matrix size 0 (or an earlier check) fails, so the result is
always an INPUT-kind error. -/
theorem C10_empty_matrix (cl : CLArgs)
    (hm : cl.input.find ("matrix") = some (.arr [])) :
    parse_matrix_rows 0 0 [] = .ok [] ∧
    ∃ e, parse cl = .error e ∧ e.error = .INPUT := by
  refine ⟨rfl, ?_⟩
  cases hp : parse cl with
  | error e => exact ⟨e, rfl, input_only_parse cl e hp⟩
  | ok inp =>
    exfalso
    obtain ⟨hjs, -, vehicles, cp, jobs, ships, m?, w, -, -, -, hmode⟩ :=
      parse_ok_inv hp
    rcases hmode with ⟨-, m, hmm, -⟩ | ⟨hfalse, -, -⟩
    · exact parse_matrix_mode_empty_no_ok
        (by unfold JVal.get; rw [hm]; rfl) hjs hmm
    · rw [show cl.input.hasMember ("matrix") = true by
        unfold JVal.hasMember; rw [hm]; rfl] at hfalse
      cases hfalse

/-- Witness for C10 at a concrete document with `matrix: []`. -/
theorem C10_empty_matrix_witness :
    (JVal.obj [(("jobs"), .arr [.obj [(("id"), .num 1),
        (("location_index"), .num 0)]]),
      (("vehicles"), .arr [.obj [(("id"), .num 1)]]),
      (("matrix"), .arr [])]).find ("matrix") = some (.arr []) ∧
    (parse_matrix_rows 0 0 [] = .ok [] ∧
      ∃ e, parse ⟨.obj [(("jobs"), .arr [.obj [(("id"), .num 1),
          (("location_index"), .num 0)]]),
        (("vehicles"), .arr [.obj [(("id"), .num 1)]]),
        (("matrix"), .arr [])], .OSRM, [], false⟩ = .error e ∧
        e.error = .INPUT) :=
  ⟨rfl,
   C10_empty_matrix ⟨.obj [(("jobs"), .arr [.obj [(("id"), .num 1),
        (("location_index"), .num 0)]]),
      (("vehicles"), .arr [.obj [(("id"), .num 1)]]),
      (("matrix"), .arr [])], .OSRM, [], false⟩ rfl⟩

/-- C5: job and break time-window lists are returned sorted ascending by
`(start, end)` whatever the document order; a job without `time_windows`
gets exactly one default unbounded window; a break whose `time_windows`
is missing, not an array or empty fails with an INPUT error naming the
break's id. -/
theorem C5_time_windows_sorted :
    (∀ (j : JVal) (tws : List TimeWindow), get_job_time_windows j = .ok tws →
      tws.Sorted tw_le) ∧
    (∀ j : JVal, j.hasMember ("time_windows") = false →
      get_job_time_windows j = .ok [TimeWindow.default]) ∧
    (∀ (b : JVal) (tws : List TimeWindow), get_break_time_windows b = .ok tws →
      tws.Sorted tw_le) ∧
    (∀ b : JVal, (b.hasMember ("time_windows") = false ∨
        (b.get ("time_windows")).isArray = false ∨
        (b.get ("time_windows")).size = 0) →
      get_break_time_windows b = .error ⟨.INPUT,
        "Invalid time_windows array for break " ++
        toString (b.get ("id")).getUint64 ++ "."⟩) := by
  refine ⟨?_, ?_, ?_, ?_⟩
  · intro j tws h
    unfold get_job_time_windows at h
    split at h
    · split at h
      · simp at h
      · rw [ebind_ok] at h
        obtain ⟨raw, -, hok⟩ := h
        obtain rfl : raw.insertionSort tw_le = tws := by simpa using hok
        exact List.sorted_insertionSort tw_le raw
    · obtain rfl : [TimeWindow.default] = tws := by simpa using h
      simp
  · intro j h
    unfold get_job_time_windows
    rw [h]
    simp
  · intro b tws h
    unfold get_break_time_windows at h
    split at h
    · simp at h
    · rw [ebind_ok] at h
      obtain ⟨raw, -, hok⟩ := h
      obtain rfl : raw.insertionSort tw_le = tws := by simpa using hok
      exact List.sorted_insertionSort tw_le raw
  · intro b hb
    unfold get_break_time_windows
    rw [if_pos]
    rcases hb with h | h | h <;>
      [skip; skip; skip] <;>
      cases h1 : b.hasMember ("time_windows") <;>
      cases h2 : (b.get ("time_windows")).isArray <;> simp_all

/-- Witness for C5: a job with windows given in descending order comes
out ascending; a job without windows gets the default; a break without
windows fails. -/
theorem C5_time_windows_sorted_witness :
    get_job_time_windows (.obj [(("id"), .num 3), (("time_windows"),
        .arr [.arr [.num 5, .num 6], .arr [.num 1, .num 2]])]) =
      .ok [⟨1, 2⟩, ⟨5, 6⟩] ∧
    List.Sorted tw_le [⟨1, 2⟩, ⟨5, 6⟩] ∧
    get_job_time_windows (.obj [(("id"), .num 3)]) =
      .ok [TimeWindow.default] ∧
    get_break_time_windows (.obj [(("id"), .num 9)]) = .error ⟨.INPUT,
      "Invalid time_windows array for break " ++
      toString ((JVal.obj [(("id"), .num 9)]).get ("id")).getUint64 ++ "."⟩ :=
  ⟨by decide,
   C5_time_windows_sorted.1 (.obj [(("id"), .num 3), (("time_windows"),
      .arr [.arr [.num 5, .num 6], .arr [.num 1, .num 2]])]) [⟨1, 2⟩, ⟨5, 6⟩]
      (by decide),
   C5_time_windows_sorted.2.1 (.obj [(("id"), .num 3)]) (by decide),
   C5_time_windows_sorted.2.2.2 (.obj [(("id"), .num 9)]) (.inl (by decide))⟩

/-- C4: for plain jobs in either mode, a deprecated `amount` field with
neither `delivery` nor `pickup` present is interpreted as the delivery
amount with a zero-vector pickup; otherwise `delivery` and `pickup` are
read independently, each defaulting to the zero vector when absent. -/
theorem C4_amount_backward_compat (j : JVal) (size : Nat) :
    (need_amount_compat j = true ↔ (j.hasMember ("amount") = true ∧
      j.hasMember ("delivery") = false ∧ j.hasMember ("pickup") = false)) ∧
    (need_amount_compat j = true →
      get_job_delivery j size = get_amount j ("amount") size ∧
      get_amount j ("pickup") size = .ok (List.replicate size 0)) ∧
    (need_amount_compat j = false →
      get_job_delivery j size = get_amount j ("delivery") size) ∧
    (j.hasMember ("delivery") = false →
      get_amount j ("delivery") size = .ok (List.replicate size 0)) ∧
    (j.hasMember ("pickup") = false →
      get_amount j ("pickup") size = .ok (List.replicate size 0)) ∧
    (∀ (m : Nat) (job : Job), get_job_matrix j size m = .ok job →
      get_job_delivery j size = .ok job.delivery ∧
      get_amount j ("pickup") size = .ok job.pickup) ∧
    (∀ job : Job, get_job_routing j size = .ok job →
      get_job_delivery j size = .ok job.delivery ∧
      get_amount j ("pickup") size = .ok job.pickup) := by
  have hiff : need_amount_compat j = true ↔ (j.hasMember ("amount") = true ∧
      j.hasMember ("delivery") = false ∧ j.hasMember ("pickup") = false) := by
    unfold need_amount_compat
    cases h1 : j.hasMember ("amount") <;>
      cases h2 : j.hasMember ("delivery") <;>
      cases h3 : j.hasMember ("pickup") <;> simp_all
  refine ⟨hiff, ?_, ?_, ?_, ?_, ?_, ?_⟩
  · intro hc
    constructor
    · unfold get_job_delivery
      rw [if_pos hc]
    · exact get_amount_absent (hiff.1 hc).2.2
  · intro hc
    unfold get_job_delivery
    rw [if_neg (by simp [hc])]
  · intro h
    exact get_amount_absent h
  · intro h
    exact get_amount_absent h
  · intro m job h
    obtain ⟨-, -, hdl, hpk, -, -, -, -⟩ := get_job_matrix_ok_inv h
    exact ⟨hdl, hpk⟩
  · intro job h
    obtain ⟨-, -, hdl, hpk, -, -, -, -⟩ := get_job_routing_ok_inv h
    exact ⟨hdl, hpk⟩

/-- Witness for C4: a job carrying only the deprecated `amount` field. -/
theorem C4_amount_backward_compat_witness :
    need_amount_compat (.obj [(("id"), .num 1), (("amount"),
      .arr [.num 3])]) = true ∧
    (get_job_delivery (.obj [(("id"), .num 1), (("amount"),
        .arr [.num 3])]) 1 =
      get_amount (.obj [(("id"), .num 1), (("amount"), .arr [.num 3])])
        ("amount") 1 ∧
    get_amount (.obj [(("id"), .num 1), (("amount"), .arr [.num 3])])
        ("pickup") 1 = .ok (List.replicate 1 0)) ∧
    need_amount_compat (.obj [(("id"), .num 1), (("delivery"),
      .arr [.num 3])]) = false ∧
    get_job_delivery (.obj [(("id"), .num 1), (("delivery"),
        .arr [.num 3])]) 1 =
      get_amount (.obj [(("id"), .num 1), (("delivery"), .arr [.num 3])])
        ("delivery") 1 :=
  ⟨by decide,
   (C4_amount_backward_compat (.obj [(("id"), .num 1), (("amount"),
      .arr [.num 3])]) 1).2.1 (by decide),
   by decide,
   (C4_amount_backward_compat (.obj [(("id"), .num 1), (("delivery"),
      .arr [.num 3])]) 1).2.2.1 (by decide)⟩

theorem check_location_index_ok_lt {v : JVal} {t : String} {m : Nat}
    (h : check_location_index v t m = .ok ()) :
    (v.get ("location_index")).getUint < m := by
  unfold check_location_index at h
  split at h
  · simp at h
  · split at h
    · simp at h
    · rename_i hle
      exact Nat.lt_of_not_le (fun hc => hle hc)

/-- C3 counterexample: the claim also asserts the bound for a vehicle's
`start_index`/`end_index`, but `parse` stores vehicle location indices
without any bound check: this document with a 1×1 matrix and a vehicle
`start_index` of 5 parses successfully and stores index 5. -/
theorem C3_matrix_invariant_counterexample :
    parse args_vehicle_oob = .ok input_vehicle_oob ∧
    args_vehicle_oob.input.hasMember ("matrix") = true ∧
    (args_vehicle_oob.input.get ("matrix")).size = 1 ∧
    input_vehicle_oob.vehicles.map Vehicle.start = [some (.index 5)] ∧
    ¬ (5 : Nat) < 1 :=
  ⟨by decide, by decide, by decide, by decide, by decide⟩

/-- C3 (amended): every `Location` carries at least one representation by
construction, and in matrix mode every stored job and shipment-side
location index is strictly below the matrix size.  (Vehicle start/end
indices are excluded: they are stored unchecked, see the
counterexample.) -/
theorem C3_matrix_invariant (cl : CLArgs) (inp : Input)
    (h : parse cl = .ok inp) (hm : cl.input.hasMember ("matrix") = true) :
    (∀ l : Location, (∃ i, l = .index i) ∨ (∃ c, l = .coords c) ∨
      (∃ i c, l = .both i c)) ∧
    (∀ j : Job, (j ∈ inp.jobs ∨ (∃ pd ∈ inp.shipments, j = pd.1 ∨ j = pd.2)) →
      ∃ i, (j.location = .index i ∨ ∃ c, j.location = .both i c) ∧
        i < (cl.input.get ("matrix")).size) := by
  constructor
  · intro l
    cases l with
    | index i => exact .inl ⟨i, rfl⟩
    | coords c => exact .inr (.inl ⟨c, rfl⟩)
    | both i c => exact .inr (.inr ⟨i, c, rfl⟩)
  · intro j hj
    obtain ⟨-, -, vehicles, cp, jobs, ships, m?, w, hinp, -, -, hmode⟩ :=
      parse_ok_inv h
    rcases hmode with ⟨-, m, hmm, -⟩ | ⟨hfalse, -, -⟩
    · obtain ⟨-, -, hjobs, hjempty, hships, hsempty⟩ :=
        parse_matrix_mode_ok_inv hmm
      subst hinp
      dsimp only at hj
      rcases hj with hj | ⟨pd, hpd, hside⟩
      · cases hhj : has_jobs cl.input
        · rw [hjempty hhj] at hj
          simp at hj
        · obtain ⟨jv, -, hgj⟩ := mapM_ok_mem (hjobs hhj) j hj
          obtain ⟨-, hcli, -, -, -, -, -, hloc⟩ := get_job_matrix_ok_inv hgj
          exact ⟨(jv.get ("location_index")).getUint, hloc,
            check_location_index_ok_lt hcli⟩
      · cases hhs : has_shipments cl.input
        · rw [hsempty hhs] at hpd
          simp at hpd
        · obtain ⟨sv, -, hgs⟩ := mapM_ok_mem (hships hhs) pd hpd
          obtain ⟨-, a, sk, pr, -, -, -, hp, hd⟩ :=
            get_shipment_matrix_ok_inv hgs
          rcases hside with rfl | rfl
          · obtain ⟨-, hcli, -, -, -, -, hloc⟩ :=
              get_shipment_side_matrix_ok_inv hp
            exact ⟨((sv.get ("pickup")).get ("location_index")).getUint, hloc,
              check_location_index_ok_lt hcli⟩
          · obtain ⟨-, hcli, -, -, -, -, hloc⟩ :=
              get_shipment_side_matrix_ok_inv hd
            exact ⟨((sv.get ("delivery")).get ("location_index")).getUint,
              hloc, check_location_index_ok_lt hcli⟩
    · rw [hm] at hfalse
      cases hfalse

/-- Witness for the amended C3 at the spec's first scenario. -/
theorem C3_matrix_invariant_witness :
    parse args_scenario1 = .ok input_scenario1 ∧
    args_scenario1.input.hasMember ("matrix") = true ∧
    ((∀ l : Location, (∃ i, l = .index i) ∨ (∃ c, l = .coords c) ∨
       (∃ i c, l = .both i c)) ∧
     (∀ j : Job, (j ∈ input_scenario1.jobs ∨
        (∃ pd ∈ input_scenario1.shipments, j = pd.1 ∨ j = pd.2)) →
       ∃ i, (j.location = .index i ∨ ∃ c, j.location = .both i c) ∧
         i < (args_scenario1.input.get ("matrix")).size)) :=
  ⟨by decide, by decide,
   C3_matrix_invariant args_scenario1 input_scenario1 (by decide) (by decide)⟩

/-! ## Congruence machinery: functions reading only certain keys -/

theorem find?_filter_other (bad k : String) (hk : k ≠ bad) :
    ∀ mem : List (String × JVal),
      (mem.filter (fun p => !(p.1 == bad))).find? (fun p => p.1 == k) =
        mem.find? (fun p => p.1 == k)
  | [] => rfl
  | (k', v) :: rest => by
    cases hb : (k' == bad) with
    | true =>
      have hk' : k' = bad := by simpa using hb
      rw [List.filter_cons_of_neg (by simp [hb]),
        List.find?_cons_of_neg _ (by simp [hk', Ne.symm hk]),
        find?_filter_other bad k hk rest]
    | false =>
      rw [List.filter_cons_of_pos (by simp [hb])]
      cases hkk : (k' == k) with
      | true =>
        rw [List.find?_cons_of_pos _ (by simpa using hkk),
          List.find?_cons_of_pos _ (by simpa using hkk)]
      | false =>
        rw [List.find?_cons_of_neg _ (by simp [hkk]),
          List.find?_cons_of_neg _ (by simp [hkk]),
          find?_filter_other bad k hk rest]

theorem find_eraseLI {j : JVal} {k : String} (hk : k ≠ ("location_index")) :
    (eraseLI j).find k = j.find k := by
  cases j <;> try rfl
  rename_i mem
  unfold eraseLI JVal.find
  dsimp only
  rw [find?_filter_other _ _ hk]

theorem isObject_eraseLI (j : JVal) : (eraseLI j).isObject = j.isObject := by
  cases j <;> rfl

theorem find_set_profile {j : JVal} {k s : String} (hk : k ≠ ("profile")) :
    (set_profile j s).find k = j.find k := by
  cases j <;> try rfl
  rename_i mem
  unfold set_profile JVal.find
  dsimp only
  rw [List.find?_append, find?_filter_other _ _ hk,
    show ([(("profile"), JVal.str s)].find? (fun p => p.1 == k)) = none by
      simp [List.find?_cons_of_neg, Ne.symm hk]]
  cases mem.find? (fun p => p.1 == k) <;> rfl

theorem isObject_set_profile (j : JVal) (s : String) :
    (set_profile j s).isObject = j.isObject := by
  cases j <;> rfl

theorem hasMember_of_find_eq {a b : JVal} {k : String}
    (h : a.find k = b.find k) : a.hasMember k = b.hasMember k := by
  unfold JVal.hasMember
  rw [h]

theorem get_of_find_eq {a b : JVal} {k : String}
    (h : a.find k = b.find k) : a.get k = b.get k := by
  unfold JVal.get
  rw [h]

theorem get_string_congr {a b : JVal} {k : String}
    (h : a.find k = b.find k) : get_string a k = get_string b k := by
  unfold get_string JVal.hasMember JVal.get
  rw [h]

theorem get_amount_congr {a b : JVal} {k : String} (s : Nat)
    (h : a.find k = b.find k) : get_amount a k s = get_amount b k s := by
  unfold get_amount JVal.hasMember JVal.get
  rw [h]

theorem get_skills_congr {a b : JVal}
    (h : a.find ("skills") = b.find ("skills")) :
    get_skills a = get_skills b := by
  unfold get_skills JVal.hasMember JVal.get
  rw [h]

theorem get_service_congr {a b : JVal}
    (h : a.find ("service") = b.find ("service")) :
    get_service a = get_service b := by
  unfold get_service JVal.hasMember JVal.get
  rw [h]

theorem get_priority_congr {a b : JVal}
    (h : a.find ("priority") = b.find ("priority")) :
    get_priority a = get_priority b := by
  unfold get_priority JVal.hasMember JVal.get
  rw [h]

theorem check_id_congr {a b : JVal} (t : String)
    (hobj : a.isObject = b.isObject)
    (hid : a.find ("id") = b.find ("id")) :
    check_id a t = check_id b t := by
  unfold check_id JVal.hasMember JVal.get
  rw [hobj, hid]

theorem check_location_congr {a b : JVal} (t : String)
    (hloc : a.find ("location") = b.find ("location"))
    (hid : a.find ("id") = b.find ("id")) :
    check_location a t = check_location b t := by
  unfold check_location JVal.hasMember JVal.get
  rw [hloc, hid]

theorem parse_coordinates_congr {a b : JVal} {k : String}
    (h : a.find k = b.find k) :
    parse_coordinates a k = parse_coordinates b k := by
  unfold parse_coordinates JVal.get
  rw [h]

theorem get_vehicle_time_window_congr {a b : JVal}
    (h : a.find ("time_window") = b.find ("time_window")) :
    get_vehicle_time_window a = get_vehicle_time_window b := by
  unfold get_vehicle_time_window JVal.hasMember JVal.get
  rw [h]

theorem get_job_time_windows_congr {a b : JVal}
    (htw : a.find ("time_windows") = b.find ("time_windows"))
    (hid : a.find ("id") = b.find ("id")) :
    get_job_time_windows a = get_job_time_windows b := by
  unfold get_job_time_windows JVal.hasMember JVal.get
  rw [htw, hid]

theorem get_vehicle_breaks_congr {a b : JVal}
    (hbr : a.find ("breaks") = b.find ("breaks"))
    (hid : a.find ("id") = b.find ("id")) :
    get_vehicle_breaks a = get_vehicle_breaks b := by
  unfold get_vehicle_breaks JVal.hasMember JVal.get
  rw [hbr, hid]

theorem get_vehicle_steps_congr {a b : JVal}
    (hst : a.find ("steps") = b.find ("steps"))
    (hid : a.find ("id") = b.find ("id")) :
    get_vehicle_steps a = get_vehicle_steps b := by
  unfold get_vehicle_steps JVal.hasMember JVal.get
  rw [hst, hid]

theorem get_vehicle_start_congr {a b : JVal} (id : Nat)
    (hsi : a.find ("start_index") = b.find ("start_index"))
    (hs : a.find ("start") = b.find ("start")) :
    get_vehicle_start a id = get_vehicle_start b id := by
  unfold get_vehicle_start JVal.hasMember JVal.get
  rw [hsi, hs, parse_coordinates_congr hs]

theorem get_vehicle_end_congr {a b : JVal} (id : Nat)
    (hei : a.find ("end_index") = b.find ("end_index"))
    (he : a.find ("end") = b.find ("end")) :
    get_vehicle_end a id = get_vehicle_end b id := by
  unfold get_vehicle_end JVal.hasMember JVal.get
  rw [hei, he, parse_coordinates_congr he]

theorem need_amount_compat_congr {a b : JVal}
    (ham : a.find ("amount") = b.find ("amount"))
    (hdl : a.find ("delivery") = b.find ("delivery"))
    (hpk : a.find ("pickup") = b.find ("pickup")) :
    need_amount_compat a = need_amount_compat b := by
  unfold need_amount_compat JVal.hasMember
  rw [ham, hdl, hpk]

theorem get_job_delivery_congr {a b : JVal} (s : Nat)
    (ham : a.find ("amount") = b.find ("amount"))
    (hdl : a.find ("delivery") = b.find ("delivery"))
    (hpk : a.find ("pickup") = b.find ("pickup")) :
    get_job_delivery a s = get_job_delivery b s := by
  unfold get_job_delivery
  rw [need_amount_compat_congr ham hdl hpk, get_amount_congr s ham,
    get_amount_congr s hdl]

theorem get_vehicle_congr {a b : JVal} (s : Nat)
    (hobj : a.isObject = b.isObject)
    (h : ∀ k, k ≠ ("profile") → a.find k = b.find k) :
    get_vehicle a s = get_vehicle b s := by
  unfold get_vehicle
  dsimp only
  rw [check_id_congr _ hobj (h ("id") (by decide)),
    get_of_find_eq (h ("id") (by decide)),
    get_vehicle_start_congr _ (h ("start_index") (by decide))
      (h ("start") (by decide)),
    get_vehicle_end_congr _ (h ("end_index") (by decide))
      (h ("end") (by decide)),
    get_amount_congr s (h ("capacity") (by decide)),
    get_skills_congr (h ("skills") (by decide)),
    get_vehicle_time_window_congr (h ("time_window") (by decide)),
    get_vehicle_breaks_congr (h ("breaks") (by decide))
      (h ("id") (by decide)),
    get_string_congr (h ("description") (by decide)),
    get_vehicle_steps_congr (h ("steps") (by decide)) (h ("id") (by decide))]

theorem get_job_routing_congr {a b : JVal} (s : Nat)
    (hobj : a.isObject = b.isObject)
    (h : ∀ k, k ≠ ("location_index") → a.find k = b.find k) :
    get_job_routing a s = get_job_routing b s := by
  unfold get_job_routing
  rw [check_id_congr _ hobj (h ("id") (by decide)),
    check_location_congr _ (h ("location") (by decide)) (h ("id") (by decide)),
    parse_coordinates_congr (h ("location") (by decide)),
    get_service_congr (h ("service") (by decide)),
    get_job_delivery_congr s (h ("amount") (by decide))
      (h ("delivery") (by decide)) (h ("pickup") (by decide)),
    get_amount_congr s (h ("pickup") (by decide)),
    get_skills_congr (h ("skills") (by decide)),
    get_priority_congr (h ("priority") (by decide)),
    get_job_time_windows_congr (h ("time_windows") (by decide))
      (h ("id") (by decide)),
    get_string_congr (h ("description") (by decide)),
    get_of_find_eq (h ("id") (by decide))]

theorem get_shipment_side_routing_congr {a b : JVal} (t : String)
    (ty : JOB_TYPE) (am : List Nat) (sk : Finset ℕ) (p : Nat)
    (hobj : a.isObject = b.isObject)
    (h : ∀ k, k ≠ ("location_index") → a.find k = b.find k) :
    get_shipment_side_routing a t ty am sk p =
      get_shipment_side_routing b t ty am sk p := by
  unfold get_shipment_side_routing
  rw [check_id_congr _ hobj (h ("id") (by decide)),
    check_location_congr _ (h ("location") (by decide)) (h ("id") (by decide)),
    parse_coordinates_congr (h ("location") (by decide)),
    get_service_congr (h ("service") (by decide)),
    get_job_time_windows_congr (h ("time_windows") (by decide))
      (h ("id") (by decide)),
    get_string_congr (h ("description") (by decide)),
    get_of_find_eq (h ("id") (by decide))]

/-! ## Common-profile lemmas -/

theorem check_id_ok_isObject {v : JVal} {t : String}
    (h : check_id v t = .ok ()) : v.isObject = true := by
  unfold check_id at h
  split at h
  · simp at h
  · rename_i hobj
    revert hobj
    cases v.isObject <;> simp

theorem find?_filter_self (bad : String) :
    ∀ mem : List (String × JVal),
      (mem.filter (fun p => !(p.1 == bad))).find? (fun p => p.1 == bad) = none
  | [] => rfl
  | (k', v) :: rest => by
    cases hb : (k' == bad) with
    | true =>
      rw [List.filter_cons_of_neg (by simp [hb])]
      exact find?_filter_self bad rest
    | false =>
      rw [List.filter_cons_of_pos (by simp [hb]),
        List.find?_cons_of_neg _ (by simp [hb])]
      exact find?_filter_self bad rest

theorem get_string_set_profile {j : JVal} (hobj : j.isObject = true)
    (q : String) : get_string (set_profile j q) ("profile") = .ok q := by
  cases j <;> try simp [JVal.isObject] at hobj
  rename_i mem
  unfold set_profile get_string JVal.hasMember JVal.get JVal.find
  dsimp only
  rw [List.find?_append, find?_filter_self]
  simp [JVal.isString, JVal.getString]

theorem add_vehicles_common_stable {s : Nat} :
    ∀ {l : List JVal} {c : String} {vl : List Vehicle} {p : String},
      c.isEmpty = false → add_vehicles s l c = .ok (vl, p) → p = c
  | [], c, vl, p => by
    intro hc h
    simp only [add_vehicles, Except.ok.injEq, Prod.mk.injEq] at h
    exact h.2.symm
  | jv :: rest, c, vl, p => by
    intro hc h
    unfold add_vehicles at h
    rw [ebind_ok] at h
    obtain ⟨v0, hv0, h⟩ := h
    rw [ebind_ok] at h
    obtain ⟨cur, hcur, h⟩ := h
    rw [ebind_ok] at h
    obtain ⟨vp, hvp, h⟩ := h
    obtain ⟨vl', p'⟩ := vp
    simp only [Except.ok.injEq, Prod.mk.injEq] at h
    obtain ⟨-, hp⟩ := h
    subst hp
    rw [if_neg (by simp [hc])] at hvp
    exact add_vehicles_common_stable hc hvp

theorem add_vehicles_first_profile {s : Nat} {v0 : JVal} {rest : List JVal}
    {vl : List Vehicle} {p : String}
    (h : add_vehicles s (v0 :: rest) "" = .ok (vl, p)) :
    ∃ cur, get_string v0 ("profile") = .ok cur ∧
      p = (if cur.isEmpty then DEFAULT_PROFILE else cur) := by
  unfold add_vehicles at h
  rw [ebind_ok] at h
  obtain ⟨v0', hv0, h⟩ := h
  rw [ebind_ok] at h
  obtain ⟨cur, hcur, h⟩ := h
  rw [ebind_ok] at h
  obtain ⟨vp, hvp, h⟩ := h
  obtain ⟨vl', p'⟩ := vp
  simp only [Except.ok.injEq, Prod.mk.injEq] at h
  obtain ⟨-, hp⟩ := h
  subst hp
  refine ⟨cur, hcur, ?_⟩
  rw [if_pos (by rfl)] at hvp
  have hne : (if cur.isEmpty then DEFAULT_PROFILE else cur).isEmpty = false := by
    cases hce : cur.isEmpty
    · simp [hce]
    · simp only [hce, if_true]
      decide
  exact add_vehicles_common_stable hne hvp

theorem add_vehicles_set_profile {s : Nat} (q : String) :
    ∀ {l : List JVal} {c : String} {vl : List Vehicle} {p : String},
      c.isEmpty = false → add_vehicles s l c = .ok (vl, p) →
      add_vehicles s (l.map (fun r => set_profile r q)) c = .ok (vl, p)
  | [], c, vl, p => by
    intro hc h
    simpa [add_vehicles] using h
  | jv :: rest, c, vl, p => by
    intro hc h
    unfold add_vehicles at h ⊢
    rw [ebind_ok] at h
    obtain ⟨v0, hv0, h⟩ := h
    rw [ebind_ok] at h
    obtain ⟨cur, hcur, h⟩ := h
    rw [ebind_ok] at h
    obtain ⟨vp, hvp, h⟩ := h
    obtain ⟨vl', p'⟩ := vp
    simp only [Except.ok.injEq, Prod.mk.injEq] at h
    obtain ⟨hvl, hp⟩ := h
    subst hvl
    subst hp
    have hobj : jv.isObject = true :=
      check_id_ok_isObject (get_vehicle_ok_inv hv0).1
    have hgv : get_vehicle (set_profile jv q) s = get_vehicle jv s :=
      get_vehicle_congr s (by rw [isObject_set_profile, hobj])
        (fun k hk => find_set_profile hk)
    rw [List.map_cons, ebind_ok]
    refine ⟨v0, by rw [hgv]; exact hv0, ?_⟩
    rw [ebind_ok]
    refine ⟨q, get_string_set_profile hobj q, ?_⟩
    rw [ebind_ok]
    rw [if_neg (by simp [hc])] at hvp ⊢
    exact ⟨(vl', p'), add_vehicles_set_profile q hc hvp, rfl⟩

theorem set_routing_wrapper_profile {r : ROUTER}
    {srv : List (String × String)} {p : String} {w : RoutingWrapper}
    (h : set_routing_wrapper r srv p = .ok w) : w.profile = p := by
  unfold set_routing_wrapper at h
  cases r <;> dsimp only at h
  · split at h
    · simp at h
    · simp only [Except.ok.injEq] at h
      subst h
      rfl
  · simp only [Except.ok.injEq] at h
    subst h
    rfl
  · split at h
    · simp at h
    · simp only [Except.ok.injEq] at h
      subst h
      rfl

/-- C6: the profile used to construct the routing capability is the first
vehicle's profile string when non-empty and the configured default
otherwise; replacing the profile of every vehicle after the first by an
arbitrary string changes neither the built vehicles nor the selected
profile; concretely, a document whose two vehicles declare differing
profiles parses successfully and keeps the first vehicle's profile. -/
theorem C6_common_profile (cl : CLArgs) (inp : Input) (q : String)
    (h : parse cl = .ok inp) :
    (∃ cur, get_string ((cl.input.get ("vehicles")).at 0) ("profile") =
        .ok cur ∧
      ∃ w, inp.routing = some w ∧
        w.profile = (if cur.isEmpty then DEFAULT_PROFILE else cur)) ∧
    (∀ (sz : Nat) (l : List JVal) (c : String) (vl : List Vehicle)
      (p : String), c.isEmpty = false → add_vehicles sz l c = .ok (vl, p) →
      add_vehicles sz (l.map (fun r => set_profile r q)) c = .ok (vl, p)) ∧
    parse args_dup_ids = .ok input_dup_ids ∧
    input_dup_ids.routing = some (.osrmRouted ("car") ("srv")) := by
  refine ⟨?_, fun sz l c vl p hc hav => add_vehicles_set_profile q hc hav,
    by decide, by decide⟩
  obtain ⟨-, ⟨-, -, hsize⟩, vehicles, common_profile, jobs, ships, m?, w,
    hinp, hvp, hw, -⟩ := parse_ok_inv h
  cases he : (cl.input.get ("vehicles")).elts with
  | nil => exact absurd (by unfold JVal.size; rw [he]; rfl) hsize
  | cons v0 rest =>
    rw [he] at hvp
    obtain ⟨cur, hcur, hp⟩ := add_vehicles_first_profile hvp
    have hat : (cl.input.get ("vehicles")).at 0 = v0 := by
      unfold JVal.at
      rw [he]
      rfl
    refine ⟨cur, by rw [hat]; exact hcur, w, by rw [hinp], ?_⟩
    rw [← hp]
    exact set_routing_wrapper_profile hw

/-- Witness for C6 at the duplicated-profile document (`car` and `bike`):
the selected profile is the first vehicle's `car`. -/
theorem C6_common_profile_witness :
    parse args_dup_ids = .ok input_dup_ids ∧
    ((∃ cur, get_string ((args_dup_ids.input.get ("vehicles")).at 0)
        ("profile") = .ok cur ∧
      ∃ w, input_dup_ids.routing = some w ∧
        w.profile = (if cur.isEmpty then DEFAULT_PROFILE else cur)) ∧
    (∀ (sz : Nat) (l : List JVal) (c : String) (vl : List Vehicle)
      (p : String), c.isEmpty = false → add_vehicles sz l c = .ok (vl, p) →
      add_vehicles sz (l.map (fun r => set_profile r ("bike"))) c =
        .ok (vl, p)) ∧
    parse args_dup_ids = .ok input_dup_ids ∧
    input_dup_ids.routing = some (.osrmRouted ("car") ("srv"))) :=
  ⟨by decide,
   C6_common_profile args_dup_ids input_dup_ids ("bike") (by decide)⟩

/-! ## Scrub lemmas: routing mode never reads `location_index` -/

theorem find_obj_map (F : String → JVal → JVal) :
    ∀ (mem : List (String × JVal)) (k : String),
      (JVal.obj (mem.map (fun p => (p.1, F p.1 p.2)))).find k =
        ((JVal.obj mem).find k).map (F k)
  | [], k => rfl
  | (k', v) :: rest, k => by
    unfold JVal.find
    dsimp only [List.map_cons]
    cases hk : (k' == k) with
    | true =>
      have hkk : k' = k := by simpa using hk
      subst hkk
      rw [List.find?_cons_of_pos _ (by simp), List.find?_cons_of_pos _ (by simp)]
      rfl
    | false =>
      rw [List.find?_cons_of_neg _ (by simp [hk]),
        List.find?_cons_of_neg _ (by simp [hk])]
      have ih := find_obj_map F rest k
      unfold JVal.find at ih
      exact ih

theorem find_scrub_doc (d : JVal) (k : String) :
    (scrub_doc d).find k = (d.find k).map (scrub_doc_field k) := by
  cases d <;> try rfl
  rename_i mem
  exact find_obj_map scrub_doc_field mem k

theorem find_scrub_shipment (x : JVal) (k : String) :
    (scrub_shipment x).find k = (x.find k).map (scrub_shipment_field k) := by
  cases x <;> try rfl
  rename_i mem
  exact find_obj_map scrub_shipment_field mem k

theorem hasMember_scrub_doc (d : JVal) (k : String) :
    (scrub_doc d).hasMember k = d.hasMember k := by
  unfold JVal.hasMember
  rw [find_scrub_doc]
  cases d.find k <;> rfl

theorem find_scrub_doc_other {d : JVal} {k : String} (h1 : k ≠ ("jobs"))
    (h2 : k ≠ ("shipments")) : (scrub_doc d).find k = d.find k := by
  rw [find_scrub_doc]
  cases d.find k with
  | none => rfl
  | some v =>
    dsimp only [Option.map]
    unfold scrub_doc_field
    rw [if_neg (by simp [h1]), if_neg (by simp [h2])]

theorem get_scrub_doc_jobs (d : JVal) :
    (scrub_doc d).get ("jobs") = scrub_arr eraseLI (d.get ("jobs")) := by
  unfold JVal.get
  rw [find_scrub_doc]
  cases d.find ("jobs") with
  | none => rfl
  | some v =>
    dsimp only [Option.map, Option.getD]
    unfold scrub_doc_field
    rw [if_pos (by decide)]

theorem get_scrub_doc_shipments (d : JVal) :
    (scrub_doc d).get ("shipments") =
      scrub_arr scrub_shipment (d.get ("shipments")) := by
  unfold JVal.get
  rw [find_scrub_doc]
  cases d.find ("shipments") with
  | none => rfl
  | some v =>
    dsimp only [Option.map, Option.getD]
    unfold scrub_doc_field
    rw [if_neg (by decide), if_pos (by decide)]

theorem isArray_scrub_arr (f : JVal → JVal) (v : JVal) :
    (scrub_arr f v).isArray = v.isArray := by
  cases v <;> rfl

theorem elts_scrub_arr (f : JVal → JVal) (v : JVal) :
    (scrub_arr f v).elts = v.elts.map f := by
  cases v <;> rfl

theorem size_scrub_arr (f : JVal → JVal) (v : JVal) :
    (scrub_arr f v).size = v.size := by
  unfold JVal.size
  rw [elts_scrub_arr, List.length_map]

theorem has_jobs_scrub (d : JVal) : has_jobs (scrub_doc d) = has_jobs d := by
  unfold has_jobs
  rw [hasMember_scrub_doc, get_scrub_doc_jobs, isArray_scrub_arr,
    size_scrub_arr]

theorem has_shipments_scrub (d : JVal) :
    has_shipments (scrub_doc d) = has_shipments d := by
  unfold has_shipments
  rw [hasMember_scrub_doc, get_scrub_doc_shipments, isArray_scrub_arr,
    size_scrub_arr]

theorem mapM_map {α β γ : Type} (f : α → β) (g : β → Except Exception γ) :
    ∀ xs : List α, (xs.map f).mapM g = xs.mapM (fun x => g (f x))
  | [] => rfl
  | x :: xs => by
    rw [List.map_cons, List.mapM_cons, List.mapM_cons, mapM_map f g xs]

theorem isObject_scrub_shipment (x : JVal) :
    (scrub_shipment x).isObject = x.isObject := by
  cases x <;> rfl

theorem get_scrub_shipment_pickup (x : JVal) :
    (scrub_shipment x).get ("pickup") = eraseLI (x.get ("pickup")) := by
  unfold JVal.get
  rw [find_scrub_shipment]
  cases x.find ("pickup") with
  | none => rfl
  | some v =>
    dsimp only [Option.map, Option.getD]
    unfold scrub_shipment_field
    rw [if_pos (by decide)]

theorem get_scrub_shipment_delivery (x : JVal) :
    (scrub_shipment x).get ("delivery") = eraseLI (x.get ("delivery")) := by
  unfold JVal.get
  rw [find_scrub_shipment]
  cases x.find ("delivery") with
  | none => rfl
  | some v =>
    dsimp only [Option.map, Option.getD]
    unfold scrub_shipment_field
    rw [if_pos (by decide)]

theorem find_scrub_shipment_other {x : JVal} {k : String}
    (h1 : k ≠ ("pickup")) (h2 : k ≠ ("delivery")) :
    (scrub_shipment x).find k = x.find k := by
  rw [find_scrub_shipment]
  cases x.find k with
  | none => rfl
  | some v =>
    dsimp only [Option.map]
    unfold scrub_shipment_field
    rw [if_neg (by simp [h1, h2])]

theorem isObject_eraseLI' (v : JVal) : (eraseLI v).isObject = v.isObject :=
  isObject_eraseLI v

theorem check_shipment_scrub (x : JVal) :
    check_shipment (scrub_shipment x) = check_shipment x := by
  unfold check_shipment JVal.hasMember
  rw [isObject_scrub_shipment, find_scrub_shipment, find_scrub_shipment,
    get_scrub_shipment_pickup, get_scrub_shipment_delivery,
    isObject_eraseLI, isObject_eraseLI]
  cases x.find ("pickup") <;> cases x.find ("delivery") <;> rfl

theorem get_job_routing_eraseLI (j : JVal) (s : Nat) :
    get_job_routing (eraseLI j) s = get_job_routing j s :=
  get_job_routing_congr s (isObject_eraseLI j) fun _ hk => find_eraseLI hk

theorem get_shipment_side_routing_eraseLI (j : JVal) (t : String)
    (ty : JOB_TYPE) (am : List Nat) (sk : Finset ℕ) (p : Nat) :
    get_shipment_side_routing (eraseLI j) t ty am sk p =
      get_shipment_side_routing j t ty am sk p :=
  get_shipment_side_routing_congr t ty am sk p (isObject_eraseLI j)
    fun _ hk => find_eraseLI hk

theorem get_shipment_routing_scrub (x : JVal) (s : Nat) :
    get_shipment_routing (scrub_shipment x) s = get_shipment_routing x s := by
  unfold get_shipment_routing
  rw [check_shipment_scrub,
    get_amount_congr s (find_scrub_shipment_other (by decide) (by decide)),
    get_skills_congr (find_scrub_shipment_other (by decide) (by decide)),
    get_priority_congr (find_scrub_shipment_other (by decide) (by decide)),
    get_scrub_shipment_pickup, get_scrub_shipment_delivery]
  simp only [get_shipment_side_routing_eraseLI]

theorem parse_routing_mode_scrub (d : JVal) (s : Nat) :
    parse_routing_mode (scrub_doc d) s = parse_routing_mode d s := by
  unfold parse_routing_mode
  dsimp only
  rw [has_jobs_scrub, has_shipments_scrub, get_scrub_doc_jobs,
    get_scrub_doc_shipments, elts_scrub_arr, elts_scrub_arr,
    mapM_map, mapM_map]
  simp only [get_job_routing_eraseLI, get_shipment_routing_scrub]

theorem get_scrub_doc_vehicles (d : JVal) :
    (scrub_doc d).get ("vehicles") = d.get ("vehicles") := by
  unfold JVal.get
  rw [find_scrub_doc_other (by decide) (by decide)]

theorem parse_scrub_doc (cl : CLArgs)
    (hm : cl.input.hasMember ("matrix") = false) :
    parse ⟨scrub_doc cl.input, cl.router, cl.servers, cl.geometry⟩ =
      parse cl := by
  unfold parse
  dsimp only
  simp only [has_jobs_scrub, has_shipments_scrub, get_scrub_doc_vehicles,
    hasMember_scrub_doc, parse_routing_mode_scrub, hm, Bool.false_eq_true,
    if_false]

/-- C8: in routing mode a job, pickup or delivery lacking a `location`
array fails with an INPUT error naming the entity and id, and
`location_index` is never read: scrubbing every job-, pickup- and
delivery-level `location_index` member from a matrix-less document leaves
the parse outcome unchanged, so two matrix-less documents differing only
in those members parse identically. -/
theorem C8_routing_mode_independence (cl : CLArgs)
    (hm : cl.input.hasMember ("matrix") = false) :
    (∀ (v : JVal) (t : String),
      (v.hasMember ("location") = false ∨
        (v.get ("location")).isArray = false) →
      check_location v t = .error ⟨.INPUT, "Invalid location for " ++ t ++
        " " ++ toString (v.get ("id")).getUint64 ++ "."⟩) ∧
    parse ⟨scrub_doc cl.input, cl.router, cl.servers, cl.geometry⟩ =
      parse cl ∧
    (∀ d' : JVal, scrub_doc d' = scrub_doc cl.input →
      parse ⟨d', cl.router, cl.servers, cl.geometry⟩ = parse cl) := by
  refine ⟨?_, parse_scrub_doc cl hm, ?_⟩
  · intro v t hv
    unfold check_location
    rw [if_pos]
    rcases hv with h | h <;> cases h1 : v.hasMember ("location") <;> simp_all
  · intro d' hd
    have hm' : d'.hasMember ("matrix") = false := by
      rw [← hasMember_scrub_doc d' ("matrix"), hd, hasMember_scrub_doc]
      exact hm
    calc parse ⟨d', cl.router, cl.servers, cl.geometry⟩
        = parse ⟨scrub_doc d', cl.router, cl.servers, cl.geometry⟩ :=
          (parse_scrub_doc ⟨d', cl.router, cl.servers, cl.geometry⟩ hm').symm
      _ = parse ⟨scrub_doc cl.input, cl.router, cl.servers, cl.geometry⟩ := by
          rw [hd]
      _ = parse cl := parse_scrub_doc cl hm

/-- Witness for C8 at the matrix-less duplicated-id document. -/
theorem C8_routing_mode_independence_witness :
    args_dup_ids.input.hasMember ("matrix") = false ∧
    ((∀ (v : JVal) (t : String),
      (v.hasMember ("location") = false ∨
        (v.get ("location")).isArray = false) →
      check_location v t = .error ⟨.INPUT, "Invalid location for " ++ t ++
        " " ++ toString (v.get ("id")).getUint64 ++ "."⟩) ∧
    parse ⟨scrub_doc args_dup_ids.input, args_dup_ids.router,
      args_dup_ids.servers, args_dup_ids.geometry⟩ = parse args_dup_ids ∧
    (∀ d' : JVal, scrub_doc d' = scrub_doc args_dup_ids.input →
      parse ⟨d', args_dup_ids.router, args_dup_ids.servers,
        args_dup_ids.geometry⟩ = parse args_dup_ids)) :=
  ⟨by decide, C8_routing_mode_independence args_dup_ids (by decide)⟩

end Vroom
